import Mathlib

/-!
Verification development for the agent-scaffold generation/reconciliation engine
(`src/agent_scaffold`): manifest data model, enablement/override resolution,
the OpenCode and Copilot generators, and the tracking-based sync reconciler.

Paths are modelled root-relative (the source builds absolute `root / rel` paths
and immediately converts back via `relative_to(root)`); path strings are joined
with "/". Python dicts are modelled as association lists in insertion order
with first-occurrence lookup; `d[k] = v` replaces the first occurrence in place
or appends. The external template renderer and `json.dumps` are injective pure
collaborators, so file contents are modelled structurally (`FileContent`).
-/

/-- First-occurrence lookup in an association list (Python `targets[name]`
and `name in targets`). -/
def dictGet {α : Type} : List (String × α) → String → Option α
  | [], _ => none
  | (k', v) :: rest, k => if k' = k then some v else dictGet rest k

/-- Python `d[k] = v` on an insertion-ordered dict: replace the first binding
of `k` in place, or append a new binding at the end. -/
def dictSet {α : Type} : List (String × α) → String → α → List (String × α)
  | [], k, v => [(k, v)]
  | (k', v') :: rest, k, v =>
    if k' = k then (k', v) :: rest else (k', v') :: dictSet rest k v

/-- Python `d.update(u)`: assign each binding of `u` into `d` in order. -/
def dictUpdate {α : Type} (d u : List (String × α)) : List (String × α) :=
  u.foldl (fun acc kv => dictSet acc kv.1 kv.2) d

/-- Python truthiness of an `Optional[str]`: `None` and `""` are falsy. -/
def strTruthy : Option String → Bool
  | none => false
  | some s => s ≠ ""

/-- Python `sorted(l, key=...)` for a string key: a stable sort on the key in
ascending order (all stable sorts agree, so insertion sort — which inserts
behind existing equal keys — models Python's Timsort exactly). -/
def sortByKey {α : Type} (key : α → String) (l : List α) : List α :=
  List.insertionSort (fun a b => key a ≤ key b) l

/-- Python `sorted` on a list of strings. -/
def sortStrings (l : List String) : List String :=
  List.insertionSort (fun a b => a ≤ b) l

/-! ## Data model (models.py) -/

/-- Instruction scope types (models.py `InstructionScope`). -/
inductive InstructionScope
  | repo
  | path
deriving DecidableEq, Repr

/-- OpenCode-specific overrides for an artifact (models.py
`OpenCodeTargetOverride`); `temperature: float` carried as `Rat` (it is never
computed with, only emitted). -/
structure OpenCodeTargetOverride where
  enabled : Bool := true
  name : Option String := none
  mode : Option String := none
  model : Option String := none
  temperature : Option Rat := none
  permission : Option String := none
  hidden : Option Bool := none
  steps : Option Int := none
deriving DecidableEq, Repr

/-- A front-matter value (`dict[str, Any]` values: YAML scalars modelled as
strings, tool lists as string lists). -/
inductive FmValue
  | str (s : String)
  | list (xs : List String)
deriving DecidableEq, Repr

/-- Copilot-specific overrides for an artifact (models.py
`CopilotTargetOverride`). -/
structure CopilotTargetOverride where
  enabled : Bool := true
  frontmatter : List (String × FmValue) := []
  out_file : Option String := none
  stub_mode : String := "link"
deriving DecidableEq, Repr

/-- The union `OpenCodeTargetOverride | CopilotTargetOverride` used for
agent and instruction target maps. -/
inductive TargetOverride
  | oc (o : OpenCodeTargetOverride)
  | cp (o : CopilotTargetOverride)
deriving DecidableEq, Repr

/-- The `enabled` attribute, present on both override variants
(`hasattr(override, "enabled")` always holds). -/
def TargetOverride.enabledField : TargetOverride → Bool
  | .oc o => o.enabled
  | .cp o => o.enabled

/-- The `frontmatter` attribute when present
(`hasattr(override, "frontmatter")` holds only for the Copilot variant). -/
def TargetOverride.fmField : TargetOverride → Option (List (String × FmValue))
  | .oc _ => none
  | .cp o => some o.frontmatter

/-- A prompt artifact (models.py `PromptArtifact`). -/
structure PromptArtifact where
  id : String
  title : String
  canonical_file : String
  description : Option String := none
  default_agent : Option String := none
  default_model : Option String := none
  tools : List String := []
  targets : List (String × CopilotTargetOverride) := []
deriving DecidableEq, Repr

/-- An agent artifact (models.py `AgentArtifact`). -/
structure AgentArtifact where
  id : String
  description : String
  prompt_file : Option String := none
  prompt : Option String := none
  targets : List (String × TargetOverride) := []
deriving DecidableEq, Repr

/-- An instruction artifact (models.py `InstructionArtifact`); note the model
declares no constraint tying `scope` to `apply_to`. -/
structure InstructionArtifact where
  id : String
  scope : InstructionScope
  canonical_file : String
  apply_to : Option String := none
  targets : List (String × TargetOverride) := []
deriving DecidableEq, Repr

/-- A skill artifact (models.py `SkillArtifact`). -/
structure SkillArtifact where
  id : String
  canonical_dir : String
  skill_file : String
  name : Option String := none
  description : Option String := none
  assets : List String := []
  targets : List (String × CopilotTargetOverride) := []
deriving DecidableEq, Repr

/-- An OpenCode slash-command artifact (models.py `CommandArtifact`);
`user_input` is the literal `"required" | "optional" | "none"`. -/
structure CommandArtifact where
  id : String
  canonical_file : String
  description : String := ""
  user_input : String := "optional"
  targets : List (String × OpenCodeTargetOverride) := []
deriving DecidableEq, Repr

/-- OpenCode target configuration (models.py `OpenCodeTarget`). -/
structure OpenCodeTarget where
  enabled : Bool := true
  config_file : String := "opencode.json"
  rules_index_file : String := "AGENTS.md"
deriving DecidableEq, Repr

/-- Copilot target configuration (models.py `CopilotTarget`). -/
structure CopilotTarget where
  enabled : Bool := true
  prompts_dir : Option String := none
  agents_dir : String := ".github/agents"
  instructions_dir : String := ".github/instructions"
  repo_instructions_file : String := ".github/copilot-instructions.md"
  skills_dir : String := ".github/skills"
deriving DecidableEq, Repr

/-- The union of target configurations, discriminated by the `kind` field in
the source (`TargetKind.OPENCODE` / `TargetKind.COPILOT`). -/
inductive TargetConfig
  | opencode (t : OpenCodeTarget)
  | copilot (t : CopilotTarget)
deriving DecidableEq, Repr

/-- The shared `enabled` flag of a target configuration. -/
def TargetConfig.enabled : TargetConfig → Bool
  | .opencode t => t.enabled
  | .copilot t => t.enabled

/-- Project-level configuration (models.py `ProjectConfig`). -/
structure ProjectConfig where
  name : String
  description : String := ""
  default_targets : List String := ["opencode", "copilot-vscode", "copilot-cli"]
deriving DecidableEq, Repr

/-- Canonical paths configuration (models.py `PathsConfig`). -/
structure PathsConfig where
  prompts_dir : String := ".agents/prompts"
  commands_dir : String := ".agents/commands"
  agents_dir : String := ".agents/agents"
  instructions_dir : String := ".agents/instructions"
  skills_dir : String := ".agents/skills"
deriving DecidableEq, Repr

/-- Container for all artifact definitions (models.py `ArtifactsConfig`). -/
structure ArtifactsConfig where
  prompts : List PromptArtifact := []
  agents : List AgentArtifact := []
  instructions : List InstructionArtifact := []
  skills : List SkillArtifact := []
  commands : List CommandArtifact := []
deriving DecidableEq, Repr

/-- The root manifest (models.py `Manifest`). -/
structure Manifest where
  schema_version : Int := 1
  project : ProjectConfig
  paths : PathsConfig := {}
  targets : List (String × TargetConfig) := []
  artifacts : ArtifactsConfig := {}
deriving DecidableEq, Repr

/-! ## Enablement and override resolution (copilot.py `_is_enabled_for_target`,
`_get_frontmatter`) — generic over the override type, mirroring the source's
duck typing (`hasattr`); `enabledOf`/`fmOf` play the role of attribute access,
with `fmOf = none` standing for a missing `frontmatter` attribute. -/

/-- copilot.py `CopilotGenerator._is_enabled_for_target`: default to enabled
when the target name is absent, else read the override's `enabled` field. -/
def isEnabledForTarget {α : Type} (enabledOf : α → Bool) (targetName : String)
    (targets : List (String × α)) : Bool :=
  match dictGet targets targetName with
  | none => true
  | some override => enabledOf override

/-- copilot.py `CopilotGenerator._get_frontmatter`: the override's front-matter
mapping when the target name is present and the override has one, else `{}`. -/
def getFrontmatterForTarget {α : Type} (fmOf : α → Option (List (String × FmValue)))
    (targetName : String) (targets : List (String × α)) : List (String × FmValue) :=
  match dictGet targets targetName with
  | none => []
  | some override =>
    match fmOf override with
    | some fm => fm
    | none => []

/-- Attribute access for prompt/skill target maps, whose overrides are always
`CopilotTargetOverride`. -/
def cpEnabledOf (o : CopilotTargetOverride) : Bool := o.enabled

/-- Front-matter attribute access for `CopilotTargetOverride`. -/
def cpFmOf (o : CopilotTargetOverride) : Option (List (String × FmValue)) :=
  some o.frontmatter

/-! ## Copilot front matter (copilot.py) -/

/-- Base front matter of a prompt (copilot.py `_generate_prompts`):
`{name: id}` plus description/agent/model when truthy and tools when
non-empty. -/
def promptBaseFrontmatter (p : PromptArtifact) : List (String × FmValue) :=
  let fm : List (String × FmValue) := [("name", FmValue.str p.id)]
  let fm := match p.description with
    | some d => if d ≠ "" then dictSet fm "description" (FmValue.str d) else fm
    | none => fm
  let fm := match p.default_agent with
    | some a => if a ≠ "" then dictSet fm "agent" (FmValue.str a) else fm
    | none => fm
  let fm := match p.default_model with
    | some m => if m ≠ "" then dictSet fm "model" (FmValue.str m) else fm
    | none => fm
  if p.tools ≠ [] then dictSet fm "tools" (FmValue.list p.tools) else fm

/-- Base front matter of an agent (copilot.py `_generate_agents`). -/
def agentBaseFrontmatter (a : AgentArtifact) : List (String × FmValue) :=
  [("name", FmValue.str a.id), ("description", FmValue.str a.description)]

/-- Base front matter of a path-scoped instruction (copilot.py
`_generate_instructions`): `applyTo` quoted, only when truthy. -/
def instructionBaseFrontmatter (i : InstructionArtifact) : List (String × FmValue) :=
  match i.apply_to with
  | some s => if s ≠ "" then [("applyTo", FmValue.str ("\"" ++ s ++ "\""))] else []
  | none => []

/-- Front matter of a skill (copilot.py `_generate_skills`): `name or id`,
`description or "<id> skill"`; no per-target override merge in the source. -/
def skillFrontmatter (s : SkillArtifact) : List (String × FmValue) :=
  [("name", FmValue.str (match s.name with
      | some n => if n ≠ "" then n else s.id
      | none => s.id)),
   ("description", FmValue.str (match s.description with
      | some d => if d ≠ "" then d else s.id ++ " skill"
      | none => s.id ++ " skill"))]

/-- Emitted front matter of a prompt for a target: the computed base mapping
updated with the target override's front-matter mapping
(`frontmatter.update(self._get_frontmatter(prompt.targets))`). -/
def promptEmittedFrontmatter (targetName : String) (p : PromptArtifact) :
    List (String × FmValue) :=
  dictUpdate (promptBaseFrontmatter p) (getFrontmatterForTarget cpFmOf targetName p.targets)

/-- Emitted front matter of an agent for a target (same merge as prompts). -/
def agentEmittedFrontmatter (targetName : String) (a : AgentArtifact) :
    List (String × FmValue) :=
  dictUpdate (agentBaseFrontmatter a)
    (getFrontmatterForTarget TargetOverride.fmField targetName a.targets)

/-- Emitted front matter of a path-scoped instruction for a target. -/
def instructionEmittedFrontmatter (targetName : String) (i : InstructionArtifact) :
    List (String × FmValue) :=
  dictUpdate (instructionBaseFrontmatter i)
    (getFrontmatterForTarget TargetOverride.fmField targetName i.targets)

/-! ## OpenCode aggregated configuration (opencode.py `_generate_opencode_json`) -/

/-- One `command.<id>` entry of the OpenCode config: description, a reference
to the canonical file, and `userInput` only when not the default
`"optional"`. -/
structure CommandEntry where
  description : String
  templateFile : String
  userInput : Option String
deriving DecidableEq, Repr

/-- One `agent.<id>` entry of the OpenCode config; fields appear only when
present (the entry is emitted only when at least one is). -/
structure AgentEntry where
  promptFile : Option String := none
  model : Option String := none
  mode : Option String := none
  temperature : Option Rat := none
  steps : Option Int := none
deriving DecidableEq, Repr

/-- Python `if agent_config:` — the dict is empty iff no field was set. -/
def AgentEntry.isEmpty (e : AgentEntry) : Bool :=
  e.promptFile.isNone && e.model.isNone && e.mode.isNone &&
    e.temperature.isNone && e.steps.isNone

/-- A value of the aggregated OpenCode config object. -/
inductive ConfigEntry
  | schema (url : String)
  | instructions (globs : List String)
  | command (c : CommandEntry)
  | agent (a : AgentEntry)
deriving DecidableEq, Repr

/-- Enablement of a command for the OpenCode config: the source consults the
literal key `"opencode"` (`if "opencode" in command_targets: ...`), not the
processed target name. -/
def commandEnabledForOpencode (targets : List (String × OpenCodeTargetOverride)) : Bool :=
  match dictGet targets "opencode" with
  | some override => override.enabled
  | none => true

/-- Enablement of an agent or instruction for the OpenCode outputs — again
against the literal key `"opencode"`. -/
def unionEnabledForOpencode (targets : List (String × TargetOverride)) : Bool :=
  match dictGet targets "opencode" with
  | some override => override.enabledField
  | none => true

/-- The `command.<id>` entry body (opencode.py lines 77-87). -/
def commandEntry (c : CommandArtifact) : CommandEntry :=
  { description := c.description
    templateFile := "./" ++ c.canonical_file
    userInput := if c.user_input ≠ "optional" then some c.user_input else none }

/-- The `agent.<id>` entry body (opencode.py lines 99-116): prompt file when
present, then OpenCode override fields — `model`/`mode` when truthy,
`temperature`/`steps` when not `None`. -/
def agentEntry (a : AgentArtifact) : AgentEntry :=
  let e : AgentEntry := {}
  let e := match a.prompt_file with
    | some pf => { e with promptFile := some ("./" ++ pf) }
    | none => e
  match dictGet a.targets "opencode" with
  | some (.oc ov) =>
    let e := if strTruthy ov.model then { e with model := ov.model } else e
    let e := if strTruthy ov.mode then { e with mode := ov.mode } else e
    let e := match ov.temperature with
      | some t => { e with temperature := some t }
      | none => e
    match ov.steps with
    | some s => { e with steps := some s }
    | none => e
  | _ => e

/-- The aggregated OpenCode config object built from the paths configuration
and the command/agent collections already sorted by id (the dict assignments
`config[key] = ...` in source order). -/
def opencodeConfigDocFrom (paths : PathsConfig) (cmds : List CommandArtifact)
    (agents : List AgentArtifact) : List (String × ConfigEntry) :=
  let base : List (String × ConfigEntry) :=
    [("$schema", ConfigEntry.schema "https://opencode.ai/config.json"),
     ("instructions", ConfigEntry.instructions [paths.instructions_dir ++ "/**/*.md"])]
  let base := cmds.foldl (fun cfg c =>
    if commandEnabledForOpencode c.targets then
      dictSet cfg ("command." ++ c.id) (ConfigEntry.command (commandEntry c))
    else cfg) base
  agents.foldl (fun cfg a =>
    if unionEnabledForOpencode a.targets then
      let e := agentEntry a
      if e.isEmpty then cfg else dictSet cfg ("agent." ++ a.id) (ConfigEntry.agent e)
    else cfg) base

/-- The aggregated OpenCode config of a manifest; commands and agents are
sorted by id ascending before emission. -/
def opencodeConfigDoc (m : Manifest) : List (String × ConfigEntry) :=
  opencodeConfigDocFrom m.paths
    (sortByKey (fun c => c.id) m.artifacts.commands)
    (sortByKey (fun a => a.id) m.artifacts.agents)

/-- Instructions listed by the AGENTS.md rules index (opencode.py
`_generate_agents_md`): sorted by id, filtered by OpenCode enablement. -/
def opencodeAgentsMdInstructions (m : Manifest) : List InstructionArtifact :=
  (sortByKey (fun i => i.id) m.artifacts.instructions).filter
    (fun i => unionEnabledForOpencode i.targets)

/-- Agents listed by the AGENTS.md rules index. -/
def opencodeAgentsMdAgents (m : Manifest) : List AgentArtifact :=
  (sortByKey (fun a => a.id) m.artifacts.agents).filter
    (fun a => unionEnabledForOpencode a.targets)

/-! ## Filesystem model -/

/-- Template-render contexts of the source's `render_template` calls; the
renderer is the external pure collaborator `render(templateId, context)`, so a
written file's bytes are determined by (template id, context). -/
inductive RenderCtx
  | copilotPrompt (frontmatter : List (String × FmValue)) (canonical_file : String)
      (id : String)
  | copilotAgent (frontmatter : List (String × FmValue)) (id : String)
      (prompt_file : Option String) (prompt : Option String)
  | copilotInstruction (frontmatter : List (String × FmValue)) (id : String)
      (canonical_file : String)
  | copilotRepoInstructions (instructions : List InstructionArtifact)
  | copilotSkill (frontmatter : List (String × FmValue)) (id : String)
      (skill_file : String)
  | opencodeAgentsMd (instructions : List InstructionArtifact)
      (agents : List AgentArtifact)
deriving DecidableEq, Repr

/-- Contents of a file, structurally: what the injective external serializers
(`render_template`, `json.dumps`) were given. -/
inductive FileContent
  | rendered (templateId : String) (ctx : RenderCtx)
  | jsonConfig (config : List (String × ConfigEntry))
  | tracking (version : Int) (files : List String)
deriving DecidableEq, Repr

/-- The filesystem under the project root: files keyed by root-relative path
strings, plus the set of existing directories (also root-relative; the root
itself is `""` and is not listed). -/
structure FS where
  files : List (String × FileContent) := []
  dirs : List String := []
deriving DecidableEq, Repr

/-- The empty project root. -/
def FS.empty : FS := {}

/-- Contents at a path, if a file exists there. -/
def FS.lookup (fs : FS) (p : String) : Option FileContent :=
  dictGet fs.files p

/-- Python `Path.exists()` for a tracked/generated path (these always name
files, never directories, so file existence is what is consulted). -/
def FS.pathExists (fs : FS) (p : String) : Bool :=
  (dictGet fs.files p).isSome

/-- Python `Path.write_text`. -/
def FS.writeText (fs : FS) (p : String) (c : FileContent) : FS :=
  { fs with files := dictSet fs.files p c }

/-- Python `Path.unlink()`. -/
def FS.unlink (fs : FS) (p : String) : FS :=
  { fs with files := fs.files.filter (fun kv => kv.1 ≠ p) }

/-- Python `Path.is_dir()`. -/
def FS.isDir (fs : FS) (p : String) : Bool :=
  fs.dirs.contains p

/-- Python `Path.rmdir()`. -/
def FS.rmdir (fs : FS) (p : String) : FS :=
  { fs with dirs := fs.dirs.filter (fun d => d ≠ p) }

/-- Splitting a character list on `'/'` (Python `str.split("/")`). -/
def splitSlash : List Char → List (List Char)
  | [] => [[]]
  | c :: rest =>
    match splitSlash rest with
    | seg :: segs => if c = '/' then [] :: seg :: segs else (c :: seg) :: segs
    | [] => [[]]

/-- The `/`-separated segments of a root-relative path string. -/
def pathSegs (p : String) : List String :=
  (splitSlash p.data).map (fun cs => String.mk cs)

/-- Parent of a root-relative path (`Path.parent`); `""` is the project root. -/
def parentPath (p : String) : String :=
  String.intercalate "/" ((pathSegs p).dropLast)

/-- The path together with its proper ancestors below the root, e.g.
`"a/b/c" ↦ ["a", "a/b", "a/b/c"]`. -/
def pathChain (p : String) : List String :=
  if p = "" then []
  else
    let segs := pathSegs p
    (List.range segs.length).map (fun k => String.intercalate "/" (segs.take (k + 1)))

/-- Modelled from the spec: the `ensureDirectory(path)` filesystem collaborator
(utils.ensure_dir, not under src/) — `mkdir(parents=True, exist_ok=True)`:
creates the directory and all missing ancestors. -/
def ensureDir (fs : FS) (p : String) : FS :=
  let ds := (pathChain p).foldl (fun ds d => if ds.contains d then ds else ds ++ [d]) fs.dirs
  { fs with dirs := ds }

/-- Python `any(directory.iterdir())`: the directory has an immediate child
file or subdirectory. -/
def FS.dirNonempty (fs : FS) (d : String) : Bool :=
  fs.files.any (fun kv => parentPath kv.1 = d) ||
    fs.dirs.any (fun d' => d' ≠ d && parentPath d' = d)

/-- Fueled body of sync.py `_cleanup_empty_dirs`: walk upward removing each
empty directory, stopping at the project root (`""`) or at the first
non-empty or non-directory entry. -/
def cleanupEmptyDirsAux : Nat → FS → String → FS
  | 0, fs, _ => fs
  | fuel + 1, fs, dir =>
    if dir ≠ "" ∧ fs.isDir dir then
      if fs.dirNonempty dir then fs
      else cleanupEmptyDirsAux fuel (fs.rmdir dir) (parentPath dir)
    else fs

/-- sync.py `_cleanup_empty_dirs`; the fuel `dir.length + 1` dominates the
length of the strictly shortening parent chain, so the loop never runs out. -/
def cleanupEmptyDirs (fs : FS) (dir : String) : FS :=
  cleanupEmptyDirsAux (dir.length + 1) fs dir

/-! ## Copilot generator (copilot.py) — the generator state is the
`BaseGenerator` constructor data (target_name, target_config, manifest;
the root is implicit in the root-relative path model). -/

/-- Generator state for a Copilot-kind target. -/
structure CopilotGenerator where
  target_name : String
  target_config : CopilotTarget
  manifest : Manifest
deriving DecidableEq, Repr

/-- The typed `config` property. -/
def CopilotGenerator.config (g : CopilotGenerator) : CopilotTarget :=
  g.target_config

/-- copilot.py `is_vscode`: this target has a prompts directory. -/
def CopilotGenerator.is_vscode (g : CopilotGenerator) : Bool :=
  g.config.prompts_dir.isSome

/-- copilot.py `list_generated_files`: all files this generator would create.
Note the repo-instructions file is declared whenever any repo-scoped
instruction exists, without the enablement filter applied elsewhere. -/
def CopilotGenerator.list_generated_files (g : CopilotGenerator) : List String :=
  let files :=
    (match g.config.prompts_dir with
     | some pd =>
       (g.manifest.artifacts.prompts.filter
          (fun p => isEnabledForTarget cpEnabledOf g.target_name p.targets)).map
         (fun p => pd ++ "/" ++ p.id ++ ".prompt.md")
     | none => [])
  let files := files ++
    (g.manifest.artifacts.agents.filter
       (fun a => isEnabledForTarget TargetOverride.enabledField g.target_name a.targets)).map
      (fun a => g.config.agents_dir ++ "/" ++ a.id ++ ".agent.md")
  let files := files ++
    (g.manifest.artifacts.instructions.filter
       (fun i => isEnabledForTarget TargetOverride.enabledField g.target_name i.targets
         && i.scope ≠ InstructionScope.repo)).map
      (fun i => g.config.instructions_dir ++ "/" ++ i.id ++ ".instructions.md")
  let files := files ++
    (if (g.manifest.artifacts.instructions.filter
          (fun i => i.scope = InstructionScope.repo)) ≠ []
     then [g.config.repo_instructions_file] else [])
  files ++
    (g.manifest.artifacts.skills.filter
       (fun s => isEnabledForTarget cpEnabledOf g.target_name s.targets)).map
      (fun s => g.config.skills_dir ++ "/" ++ s.id ++ "/SKILL.md")

/-- Loop body of copilot.py `_generate_prompts` over the sorted prompts. -/
def generatePromptsGo (g : CopilotGenerator) (pd : String) (dryRun : Bool) :
    List PromptArtifact → FS → List String × FS
  | [], fs => ([], fs)
  | p :: ps, fs =>
    if isEnabledForTarget cpEnabledOf g.target_name p.targets then
      let path := pd ++ "/" ++ p.id ++ ".prompt.md"
      let content := FileContent.rendered "copilot/prompt.md.j2"
        (RenderCtx.copilotPrompt (promptEmittedFrontmatter g.target_name p)
          p.canonical_file p.id)
      let fs1 := if dryRun then fs else (ensureDir fs (parentPath path)).writeText path content
      let res := generatePromptsGo g pd dryRun ps fs1
      (path :: res.1, res.2)
    else generatePromptsGo g pd dryRun ps fs

/-- copilot.py `_generate_prompts`. -/
def CopilotGenerator.generatePrompts (g : CopilotGenerator) (dryRun : Bool) (fs : FS) :
    List String × FS :=
  match g.config.prompts_dir with
  | none => ([], fs)
  | some pd => generatePromptsGo g pd dryRun (sortByKey (fun p => p.id) g.manifest.artifacts.prompts) fs

/-- Loop body of copilot.py `_generate_agents` over the sorted agents. -/
def generateAgentsGo (g : CopilotGenerator) (dryRun : Bool) :
    List AgentArtifact → FS → List String × FS
  | [], fs => ([], fs)
  | a :: as_, fs =>
    if isEnabledForTarget TargetOverride.enabledField g.target_name a.targets then
      let path := g.config.agents_dir ++ "/" ++ a.id ++ ".agent.md"
      let content := FileContent.rendered "copilot/agent.md.j2"
        (RenderCtx.copilotAgent (agentEmittedFrontmatter g.target_name a)
          a.id a.prompt_file a.prompt)
      let fs1 := if dryRun then fs else (ensureDir fs (parentPath path)).writeText path content
      let res := generateAgentsGo g dryRun as_ fs1
      (path :: res.1, res.2)
    else generateAgentsGo g dryRun as_ fs

/-- copilot.py `_generate_agents`. -/
def CopilotGenerator.generateAgents (g : CopilotGenerator) (dryRun : Bool) (fs : FS) :
    List String × FS :=
  generateAgentsGo g dryRun (sortByKey (fun a => a.id) g.manifest.artifacts.agents) fs

/-- Loop body of copilot.py `_generate_instructions` over the sorted
instructions: writes path-scoped files and collects enabled repo-scoped
instructions for the aggregated file. -/
def generateInstructionsGo (g : CopilotGenerator) (dryRun : Bool) :
    List InstructionArtifact → FS → (List String × List InstructionArtifact) × FS
  | [], fs => (([], []), fs)
  | i :: is_, fs =>
    if isEnabledForTarget TargetOverride.enabledField g.target_name i.targets then
      if i.scope = InstructionScope.repo then
        let res := generateInstructionsGo g dryRun is_ fs
        ((res.1.1, i :: res.1.2), res.2)
      else
        let path := g.config.instructions_dir ++ "/" ++ i.id ++ ".instructions.md"
        let content := FileContent.rendered "copilot/instruction.md.j2"
          (RenderCtx.copilotInstruction (instructionEmittedFrontmatter g.target_name i)
            i.id i.canonical_file)
        let fs1 := if dryRun then fs else (ensureDir fs (parentPath path)).writeText path content
        let res := generateInstructionsGo g dryRun is_ fs1
        ((path :: res.1.1, res.1.2), res.2)
    else generateInstructionsGo g dryRun is_ fs

/-- copilot.py `_generate_instructions`: path-scoped instruction files, then
the aggregated repo-instructions file when at least one enabled repo-scoped
instruction was collected. -/
def CopilotGenerator.generateInstructions (g : CopilotGenerator) (dryRun : Bool) (fs : FS) :
    List String × FS :=
  let res := generateInstructionsGo g dryRun
    (sortByKey (fun i => i.id) g.manifest.artifacts.instructions) fs
  if res.1.2 ≠ [] then
    let rp := g.config.repo_instructions_file
    let content := FileContent.rendered "copilot/copilot-instructions.md.j2"
      (RenderCtx.copilotRepoInstructions res.1.2)
    let fs2 := if dryRun then res.2 else (ensureDir res.2 (parentPath rp)).writeText rp content
    (res.1.1 ++ [rp], fs2)
  else (res.1.1, res.2)

/-- Loop body of copilot.py `_generate_skills` over the sorted skills. -/
def generateSkillsGo (g : CopilotGenerator) (dryRun : Bool) :
    List SkillArtifact → FS → List String × FS
  | [], fs => ([], fs)
  | s :: ss, fs =>
    if isEnabledForTarget cpEnabledOf g.target_name s.targets then
      let path := g.config.skills_dir ++ "/" ++ s.id ++ "/SKILL.md"
      let content := FileContent.rendered "copilot/skill.md.j2"
        (RenderCtx.copilotSkill (skillFrontmatter s) s.id s.skill_file)
      let fs1 := if dryRun then fs else (ensureDir fs (parentPath path)).writeText path content
      let res := generateSkillsGo g dryRun ss fs1
      (path :: res.1, res.2)
    else generateSkillsGo g dryRun ss fs

/-- copilot.py `_generate_skills`. -/
def CopilotGenerator.generateSkills (g : CopilotGenerator) (dryRun : Bool) (fs : FS) :
    List String × FS :=
  generateSkillsGo g dryRun (sortByKey (fun s => s.id) g.manifest.artifacts.skills) fs

/-- copilot.py `generate`: prompts (VS Code sub-variant only), agents,
instructions, skills, in order. -/
def CopilotGenerator.generate (g : CopilotGenerator) (dryRun : Bool) (fs : FS) :
    List String × FS :=
  let rp := if g.is_vscode then g.generatePrompts dryRun fs else ([], fs)
  let ra := g.generateAgents dryRun rp.2
  let ri := g.generateInstructions dryRun ra.2
  let rs := g.generateSkills dryRun ri.2
  (rp.1 ++ ra.1 ++ ri.1 ++ rs.1, rs.2)

/-! ## OpenCode generator (opencode.py) -/

/-- Generator state for an OpenCode-kind target (note: the source never reads
`self.target_name` in this generator; enablement is resolved against the
literal key `"opencode"`). -/
structure OpenCodeGenerator where
  target_name : String
  target_config : OpenCodeTarget
  manifest : Manifest
deriving DecidableEq, Repr

/-- The typed `config` property. -/
def OpenCodeGenerator.config (g : OpenCodeGenerator) : OpenCodeTarget :=
  g.target_config

/-- opencode.py `list_generated_files`: the aggregated config file and the
rules index, always. -/
def OpenCodeGenerator.list_generated_files (g : OpenCodeGenerator) : List String :=
  [g.config.config_file, g.config.rules_index_file]

/-- opencode.py `generate`: write the aggregated config object and the
AGENTS.md rules index (both paths are always returned). -/
def OpenCodeGenerator.generate (g : OpenCodeGenerator) (dryRun : Bool) (fs : FS) :
    List String × FS :=
  let configPath := g.config.config_file
  let fs1 := if dryRun then fs
    else (ensureDir fs (parentPath configPath)).writeText configPath
      (FileContent.jsonConfig (opencodeConfigDoc g.manifest))
  let rulesPath := g.config.rules_index_file
  let fs2 := if dryRun then fs1
    else (ensureDir fs1 (parentPath rulesPath)).writeText rulesPath
      (FileContent.rendered "opencode/AGENTS.md.j2"
        (RenderCtx.opencodeAgentsMd (opencodeAgentsMdInstructions g.manifest)
          (opencodeAgentsMdAgents g.manifest)))
  ([configPath, rulesPath], fs2)

/-! ## Tracking store (generators/__init__.py) -/

/-- Root-relative path of the tracking record
(`GENERATED_TRACKING_FILE = ".agents/.generated.json"`). -/
def trackingPath : String := ".agents/.generated.json"

/-- A parsed JSON value, for the tracking loader's input. -/
inductive Json
  | null
  | bool (b : Bool)
  | num (n : Int)
  | str (s : String)
  | arr (xs : List Json)
  | obj (fields : List (String × Json))

mutual

/-- Structural equality of JSON values (Python `==`, as used by `set`). -/
def Json.beq : Json → Json → Bool
  | .null, .null => true
  | .bool a, .bool b => a == b
  | .num a, .num b => a == b
  | .str a, .str b => a == b
  | .arr xs, .arr ys => Json.beqList xs ys
  | .obj xs, .obj ys => Json.beqObj xs ys
  | _, _ => false

/-- Elementwise equality of JSON arrays. -/
def Json.beqList : List Json → List Json → Bool
  | [], [] => true
  | x :: xs, y :: ys => Json.beq x y && Json.beqList xs ys
  | _, _ => false

/-- Fieldwise equality of JSON objects. -/
def Json.beqObj : List (String × Json) → List (String × Json) → Bool
  | [], [] => true
  | (k, v) :: xs, (l, w) :: ys => k == l && Json.beq v w && Json.beqObj xs ys
  | _, _ => false

end

instance : BEq Json := ⟨Json.beq⟩

/-- Whether a Python value of this JSON shape is hashable (lists and dicts
are not). -/
def Json.hashable : Json → Bool
  | .arr _ => false
  | .obj _ => false
  | _ => true

/-- Python `set(v)` on a parsed JSON value: iterates lists (elements must be
hashable), strings (characters) and dicts (keys); other values are not
iterable and raise `TypeError`. The resulting set is represented as the
deduplicated element list. -/
def pySet (v : Json) : Except String (List Json)  :=
  match v with
  | .arr xs => if xs.all Json.hashable then .ok xs.eraseDups else .error "TypeError"
  | .str s => .ok ((s.toList.map (fun c => Json.str (String.mk [c]))).eraseDups)
  | .obj fields => .ok ((fields.map (fun kv => Json.str kv.1)).eraseDups)
  | _ => .error "TypeError"

/-- generators/__init__.py `load_generated_tracking` over the tracking file's
state: `none` = file absent, `some none` = text that fails to parse as JSON,
`some (some j)` = text parsing to `j`. The `try` block catches only
`JSONDecodeError` and `KeyError`; `data.get` on a non-object raises
`AttributeError` and `set(...)` can raise `TypeError`, both uncaught. -/
def load_generated_tracking (content : Option (Option Json)) : Except String (List Json) :=
  match content with
  | none => .ok []
  | some none => .ok []
  | some (some j) =>
    match j with
    | .obj fields =>
      pySet ((dictGet fields "files").getD (Json.arr []))
    | _ => .error "AttributeError"

/-- generators/__init__.py `save_generated_tracking`: ensure the `.agents`
directory, then write `{"version": 1, "files": sorted(files)}`. -/
def save_generated_tracking (fs : FS) (files : List String) : FS :=
  (ensureDir fs (parentPath trackingPath)).writeText trackingPath
    (FileContent.tracking 1 (sortStrings files))

/-- The previous-run set as sync loads it from the modelled filesystem: a
stored tracking record yields `set(data["files"])`; an absent file, a
rendered (non-JSON) document, or a config object (which never has a `"files"`
key) all yield the empty set, as in `load_generated_tracking`. -/
def loadTrackingFS (fs : FS) : List String :=
  match fs.lookup trackingPath with
  | some (.tracking _ files) => files.dedup
  | _ => []

/-! ## Sync reconciler (commands/sync.py) -/

/-- Target selection (sync.py lines 59-68): an explicitly named target must
exist in the manifest (else `SystemExit`) and is used as-is — its `enabled`
flag is not consulted; otherwise all enabled targets are used. -/
def targetsToSync (m : Manifest) (target : Option String) : Except String (List String) :=
  match target with
  | some t =>
    if (dictGet m.targets t).isSome then .ok [t]
    else .error ("Unknown target " ++ t)
  | none => .ok ((m.targets.filter (fun kv => kv.2.enabled)).map (fun kv => kv.1))

/-- generators/__init__.py `get_generator`, fused with the `generate` call:
dispatch on the target kind (the kind enum has exactly these two values, so
the generator-missing branch is unreachable). -/
def generateForTarget (tn : String) (cfg : TargetConfig) (m : Manifest)
    (dryRun : Bool) (fs : FS) : List String × FS :=
  match cfg with
  | .opencode t => OpenCodeGenerator.generate ⟨tn, t, m⟩ dryRun fs
  | .copilot t => CopilotGenerator.generate ⟨tn, t, m⟩ dryRun fs

/-- The per-target loop of sync.py lines 73-90, accumulating generated paths. -/
def syncGenerateGo (m : Manifest) (dryRun : Bool) : List String → FS → List String × FS
  | [], fs => ([], fs)
  | tn :: rest, fs =>
    match dictGet m.targets tn with
    | some cfg =>
      let r1 := generateForTarget tn cfg m dryRun fs
      let r2 := syncGenerateGo m dryRun rest r1.2
      (r1.1 ++ r2.1, r2.2)
    | none => syncGenerateGo m dryRun rest fs

/-- The pruning sweep of sync.py lines 105-114 over the sorted stale paths:
delete each stale path that still exists (report only on dry-run), then clean
up newly empty parent directories. Returns the filesystem and the
removed/reported paths. -/
def pruneGo (dryRun : Bool) : List String → FS → FS × List String
  | [], fs => (fs, [])
  | p :: ps, fs =>
    if fs.pathExists p then
      if dryRun then
        let r := pruneGo dryRun ps fs
        (r.1, p :: r.2)
      else
        let fs1 := cleanupEmptyDirs (fs.unlink p) (parentPath p)
        let r := pruneGo dryRun ps fs1
        (r.1, p :: r.2)
    else pruneGo dryRun ps fs

/-- Observable outcome of one sync invocation. -/
structure SyncOut where
  fs : FS
  processed : List String
  allGenerated : List String
  current : List String
  pruned : List String
deriving DecidableEq, Repr

/-- commands/sync.py `sync_cmd` (after manifest load): select targets,
generate, optionally prune against the tracking record, and persist the
current set unless dry-run. `current` is the set (deduplicated list) of
root-relative generated path strings. -/
def sync_cmd (m : Manifest) (target : Option String) (dryRun prune : Bool)
    (fs0 : FS) : Except String SyncOut :=
  match targetsToSync m target with
  | .error e => .error e
  | .ok tgts =>
    let r1 := syncGenerateGo m dryRun tgts fs0
    let current := r1.1.dedup
    let r2 :=
      if prune then
        let previous := loadTrackingFS r1.2
        let stale := previous.filter (fun p => decide (p ∉ current))
        pruneGo dryRun (sortStrings stale) r1.2
      else (r1.2, [])
    let fs3 := if dryRun then r2.1 else save_generated_tracking r2.1 current
    .ok ⟨fs3, tgts, r1.1, current, r2.2⟩

/-! ## Manifest validation of instructions (models.py / manifest.py) -/

/-- Raw document fields of one instruction entry as they reach
`InstructionArtifact` validation (`Manifest.model_validate` via
`load_manifest`); each field is present or absent. The raw `targets` mapping
is omitted: its validation involves no cross-field constraint. -/
structure RawInstruction where
  id : Option String
  scope : Option String
  canonicalFile : Option String
  applyTo : Option String
deriving DecidableEq, Repr

/-- Pydantic validation of `InstructionArtifact` as declared in models.py:
`id`, `scope` and `canonicalFile` are required, `scope` must be a member of
the `InstructionScope` enum, `applyTo` is optional with default `None`. The
model declares no validator linking `scope` to `applyTo`. -/
def validateInstruction (r : RawInstruction) : Except String InstructionArtifact :=
  match r.id, r.scope, r.canonicalFile with
  | some i, some s, some cf =>
    match (if s = "repo" then some InstructionScope.repo
           else if s = "path" then some InstructionScope.path else none) with
    | some sc => .ok { id := i, scope := sc, canonical_file := cf, apply_to := r.applyTo }
    | none => .error "Manifest validation failed: scope"
  | _, _, _ => .error "Manifest validation failed: field required"

/-- Validation of the manifest's instruction collection: every entry must
validate (pydantic fails the whole document on the first invalid entry). -/
def validateInstructions : List RawInstruction → Except String (List InstructionArtifact)
  | [] => .ok []
  | r :: rs =>
    match validateInstruction r with
    | .ok i =>
      match validateInstructions rs with
      | .ok is_ => .ok (i :: is_)
      | .error e => .error e
    | .error e => .error e

/-- commands/add.py `add_instruction`'s guard (lines 263-267): scope `path`
with a falsy `--apply-to` exits with an error before any file is written. -/
def addInstructionGuard (scope : String) (applyTo : Option String) : Except String Unit :=
  if scope = "path" ∧ strTruthy applyTo = false then
    .error "Path-scoped instructions require --apply-to"
  else .ok ()

/-! ## Claim C1 -/

/-- A repo-scoped instruction disabled for the Copilot target
`copilot-vscode`. -/
def c1Instruction : InstructionArtifact :=
  { id := "repo-default"
    scope := InstructionScope.repo
    canonical_file := ".agents/instructions/repo-default.md"
    targets := [("copilot-vscode", TargetOverride.cp { enabled := false })] }

/-- A manifest whose only artifact is `c1Instruction`. -/
def c1Manifest : Manifest :=
  { project := { name := "demo" }
    targets := [("copilot-vscode", TargetConfig.copilot {})]
    artifacts := { instructions := [c1Instruction] } }

/-- The Copilot generator processing `copilot-vscode` for `c1Manifest`. -/
def c1Gen : CopilotGenerator :=
  { target_name := "copilot-vscode", target_config := {}, manifest := c1Manifest }

/-- Claim C1: for every manifest and Copilot-kind target, the path set of
`list_generated_files` equals that of `generate(dryRun=true)`, and the
repo-instructions file is declared iff an enabled repo-scoped instruction
exists. This is false: with a single repo-scoped instruction disabled for the
target, `list_generated_files` declares the aggregated repo-instructions file
(it omits the enablement filter) while a dry-run `generate` produces no file
at all. -/
theorem c1_list_vs_generate_diverge :
    CopilotGenerator.list_generated_files c1Gen = [".github/copilot-instructions.md"] ∧
    (CopilotGenerator.generate c1Gen true FS.empty).1 = [] := by
  refine ⟨rfl, ?_⟩
  decide

/-! ## Claim C5 -/

/-- Claim C5: `load_generated_tracking` tolerates an absent file, unparsable
text, and a JSON object without a `files` key, but a tracking file whose text
parses to a non-object JSON value (e.g. `[]`) raises `AttributeError` from
`data.get` — only `JSONDecodeError` and `KeyError` are caught — contradicting
the claim that it never raises. -/
theorem c5_load_tracking_raises_on_nonobject :
    load_generated_tracking (some (some (Json.arr []))) = .error "AttributeError" ∧
    load_generated_tracking (some (some (Json.num 5))) = .error "AttributeError" ∧
    load_generated_tracking none = .ok [] ∧
    load_generated_tracking (some none) = .ok [] ∧
    load_generated_tracking (some (some (Json.obj []))) = .ok [] ∧
    load_generated_tracking (some (some (Json.obj [("files", Json.arr [Json.str "a.md"])])))
      = .ok [Json.str "a.md"] := by
  refine ⟨rfl, rfl, rfl, rfl, rfl, rfl⟩

/-! ## Claim C2 -/

/-- Claim C2 counterexample: a manifest document carrying an instruction with
`scope = path` and no `applyTo` passes `Manifest` validation — `load_manifest`
accepts it and hands it to the generators instead of failing. -/
theorem c2_path_scope_accepted :
    validateInstructions
        [{ id := some "typescript", scope := some "path",
           canonicalFile := some ".agents/instructions/typescript.md", applyTo := none }]
      = .ok [{ id := "typescript", scope := InstructionScope.path,
               canonical_file := ".agents/instructions/typescript.md", apply_to := none }] := by
  exact rfl

/-- Claim C2 amended: manifest validation accepts a path-scoped instruction
without an `applyTo` pattern (the model declares no such invariant); the
path-scope requirement is enforced only by the `add-instruction` command,
whose guard fails before writing any file exactly when scope is `path` and
the supplied pattern is falsy (absent or empty). -/
theorem c2_amended_validation_and_guard (i cf : String) (applyTo : Option String) :
    validateInstructions
        [{ id := some i, scope := some "path", canonicalFile := some cf, applyTo := none }]
      = .ok [{ id := i, scope := InstructionScope.path,
               canonical_file := cf, apply_to := none }] ∧
    (addInstructionGuard "path" applyTo = .ok () ↔ strTruthy applyTo = true) := by
  refine ⟨rfl, ?_⟩
  unfold addInstructionGuard
  cases hst : strTruthy applyTo
  · rw [if_pos ⟨rfl, rfl⟩]
    exact ⟨(fun h => nomatch h), (fun h => nomatch h)⟩
  · rw [if_neg (fun hc => by cases hc.2)]
    exact ⟨fun _ => rfl, fun _ => rfl⟩

/-! ## Claim C6 -/

/-- A command disabled (via override) for the target name `oc2`. -/
def c6Command : CommandArtifact :=
  { id := "lint"
    canonical_file := ".agents/commands/lint.md"
    targets := [("oc2", { enabled := false })] }

/-- A manifest whose OpenCode-kind target is named `oc2`, with `c6Command`. -/
def c6Manifest : Manifest :=
  { project := { name := "demo" }
    targets := [("oc2", TargetConfig.opencode {})]
    artifacts := { commands := [c6Command] } }

/-- Claim C6 counterexample: the OpenCode generator processing target name
`oc2` emits `command.lint` into the aggregated config although the command's
overrides map contains `oc2` with `enabled = false` — the generator consults
the literal key `"opencode"`, not the processed target name, so the claimed
"emitted iff the override's enabled field" fails. -/
theorem c6_opencode_ignores_processed_target_name :
    dictGet c6Command.targets "oc2" = some { enabled := false } ∧
    (FS.lookup (OpenCodeGenerator.generate ⟨"oc2", {}, c6Manifest⟩ false FS.empty).2
        "opencode.json")
      = some (FileContent.jsonConfig
          [("$schema", ConfigEntry.schema "https://opencode.ai/config.json"),
           ("instructions", ConfigEntry.instructions [".agents/instructions/**/*.md"]),
           ("command.lint", ConfigEntry.command
             { description := "", templateFile := "./.agents/commands/lint.md",
               userInput := none })]) := by
  exact ⟨rfl, by decide⟩

/-- Claim C6 amended: enablement resolution is total and never raises, and
follows the default-enabled rule — `true` when the consulted key is absent
from the overrides map, the override's `enabled` field when present. The
Copilot generator consults the processed target name
(`_is_enabled_for_target`); the OpenCode generator instead consults the fixed
key `"opencode"` for commands, agents and instructions, so for it the claimed
per-target rule holds exactly when the processed target name is
`"opencode"`. -/
theorem c6_amended_enablement_resolution :
    (∀ {α : Type} (enabledOf : α → Bool) (tn : String) (targets : List (String × α)),
      (dictGet targets tn = none → isEnabledForTarget enabledOf tn targets = true) ∧
      (∀ ov, dictGet targets tn = some ov →
        isEnabledForTarget enabledOf tn targets = enabledOf ov)) ∧
    (∀ targets : List (String × OpenCodeTargetOverride),
      commandEnabledForOpencode targets
        = isEnabledForTarget (fun o => o.enabled) "opencode" targets) ∧
    (∀ targets : List (String × TargetOverride),
      unionEnabledForOpencode targets
        = isEnabledForTarget TargetOverride.enabledField "opencode" targets) := by
  refine ⟨?_, ?_, ?_⟩
  · intro α enabledOf tn targets
    constructor
    · intro h
      simp only [isEnabledForTarget, h]
    · intro ov h
      simp only [isEnabledForTarget, h]
  · intro targets
    simp only [commandEnabledForOpencode, isEnabledForTarget]
    cases dictGet targets "opencode" <;> rfl
  · intro targets
    simp only [unionEnabledForOpencode, isEnabledForTarget]
    cases dictGet targets "opencode" <;> rfl

/-- Witness for the amended C6 theorem at concrete inputs. -/
theorem c6_amended_enablement_resolution_witness :
    isEnabledForTarget (fun o : OpenCodeTargetOverride => o.enabled) "t"
        ([] : List (String × OpenCodeTargetOverride)) = true ∧
    isEnabledForTarget TargetOverride.enabledField "t"
        [("t", TargetOverride.oc { enabled := false })] = false ∧
    commandEnabledForOpencode [("opencode", { enabled := false })]
      = isEnabledForTarget (fun o : OpenCodeTargetOverride => o.enabled) "opencode"
          [("opencode", ({ enabled := false } : OpenCodeTargetOverride))] := by
  refine ⟨?_, ?_, ?_⟩
  · exact (c6_amended_enablement_resolution.1
      (fun o : OpenCodeTargetOverride => o.enabled) "t" []).1 rfl
  · exact ((c6_amended_enablement_resolution.1 TargetOverride.enabledField "t"
      [("t", TargetOverride.oc { enabled := false })]).2
        (TargetOverride.oc { enabled := false }) (by decide)).trans rfl
  · exact c6_amended_enablement_resolution.2.1
      [("opencode", ({ enabled := false } : OpenCodeTargetOverride))]

/-! ## Dictionary lemmas and Claim C7 -/

/-- Lookup after a single dict assignment. -/
theorem dictGet_dictSet {α : Type} (d : List (String × α)) (k k' : String) (v : α) :
    dictGet (dictSet d k v) k' = if k = k' then some v else dictGet d k' := by
  induction d with
  | nil => simp [dictSet, dictGet]
  | cons kv rest ih =>
    obtain ⟨k0, v0⟩ := kv
    simp only [dictSet, dictGet]
    by_cases h0 : k0 = k
    · subst h0
      simp only [if_pos rfl, dictGet]
      by_cases h1 : k0 = k'
      · simp [h1]
      · simp [h1]
    · rw [if_neg h0]
      simp only [dictGet]
      by_cases h1 : k0 = k'
      · subst h1
        have hk : ¬ k = k0 := fun h => h0 h.symm
        simp [hk]
      · simp [h1, ih]

/-- A key bound nowhere in the list looks up to `none`. -/
theorem dictGet_eq_none_of_not_mem {α : Type} (d : List (String × α)) (k : String)
    (h : k ∉ d.map Prod.fst) : dictGet d k = none := by
  induction d with
  | nil => rfl
  | cons kv rest ih =>
    obtain ⟨k0, v0⟩ := kv
    simp only [List.map_cons, List.mem_cons] at h
    push_neg at h
    simp only [dictGet]
    rw [if_neg (fun he => h.1 he.symm)]
    exact ih h.2

/-- Lookup after `d.update(u)` when `u` has no duplicate keys (a Python dict
never does): the override binding wins, base-only keys are retained. -/
theorem dictGet_dictUpdate {α : Type} (d u : List (String × α)) (k : String)
    (hu : (u.map Prod.fst).Nodup) :
    dictGet (dictUpdate d u) k = (dictGet u k).or (dictGet d k) := by
  induction u generalizing d with
  | nil => simp [dictUpdate, dictGet, Option.or]
  | cons kv rest ih =>
    obtain ⟨k0, v0⟩ := kv
    simp only [List.map_cons, List.nodup_cons] at hu
    have hstep : dictUpdate d ((k0, v0) :: rest) = dictUpdate (dictSet d k0 v0) rest := rfl
    rw [hstep, ih _ hu.2, dictGet_dictSet]
    simp only [dictGet]
    by_cases hk : k0 = k
    · subst hk
      rw [if_pos rfl, if_pos rfl]
      rw [dictGet_eq_none_of_not_mem rest k0 hu.1]
      rfl
    · rw [if_neg hk, if_neg hk]

/-- Claim C7: for every prompt and agent artifact and every target name, the
emitted front matter is the computed base mapping updated key-by-key with the
target override's front-matter mapping — on every key, the override binding
wins when present and the base binding is retained otherwise (last-write-wins,
override applied after base). The override mapping is a Python dict, hence
has no duplicate keys. -/
theorem c7_frontmatter_override_precedence (tn k : String)
    (p : PromptArtifact) (a : AgentArtifact)
    (hp : ((getFrontmatterForTarget cpFmOf tn p.targets).map Prod.fst).Nodup)
    (ha : ((getFrontmatterForTarget TargetOverride.fmField tn a.targets).map Prod.fst).Nodup) :
    dictGet (promptEmittedFrontmatter tn p) k
      = (dictGet (getFrontmatterForTarget cpFmOf tn p.targets) k).or
          (dictGet (promptBaseFrontmatter p) k) ∧
    dictGet (agentEmittedFrontmatter tn a) k
      = (dictGet (getFrontmatterForTarget TargetOverride.fmField tn a.targets) k).or
          (dictGet (agentBaseFrontmatter a) k) :=
  ⟨dictGet_dictUpdate _ _ _ hp, dictGet_dictUpdate _ _ _ ha⟩

/-- The spec's override-precedence example as a prompt: base front matter
`{name: "x", description: "y"}`. -/
def c7Prompt : PromptArtifact :=
  { id := "x"
    title := "X"
    canonical_file := ".agents/prompts/x.md"
    description := some "y"
    targets := [("t", { frontmatter := [("description", FmValue.str "z")] })] }

/-- The same example as an agent. -/
def c7Agent : AgentArtifact :=
  { id := "x"
    description := "y"
    targets := [("t", TargetOverride.cp { frontmatter := [("description", FmValue.str "z")] })] }

/-- Witness for C7 at the spec's example: the override `description: "z"`
wins and the base `name: "x"` is retained, for the prompt and the agent. -/
theorem c7_frontmatter_override_precedence_witness :
    ((getFrontmatterForTarget cpFmOf "t" c7Prompt.targets).map Prod.fst).Nodup ∧
    ((getFrontmatterForTarget TargetOverride.fmField "t" c7Agent.targets).map Prod.fst).Nodup ∧
    (dictGet (promptEmittedFrontmatter "t" c7Prompt) "description"
      = (dictGet (getFrontmatterForTarget cpFmOf "t" c7Prompt.targets) "description").or
          (dictGet (promptBaseFrontmatter c7Prompt) "description") ∧
     dictGet (agentEmittedFrontmatter "t" c7Agent) "description"
      = (dictGet (getFrontmatterForTarget TargetOverride.fmField "t" c7Agent.targets)
            "description").or
          (dictGet (agentBaseFrontmatter c7Agent) "description")) ∧
    (dictGet (promptEmittedFrontmatter "t" c7Prompt) "name"
      = (dictGet (getFrontmatterForTarget cpFmOf "t" c7Prompt.targets) "name").or
          (dictGet (promptBaseFrontmatter c7Prompt) "name") ∧
     dictGet (agentEmittedFrontmatter "t" c7Agent) "name"
      = (dictGet (getFrontmatterForTarget TargetOverride.fmField "t" c7Agent.targets) "name").or
          (dictGet (agentBaseFrontmatter c7Agent) "name")) ∧
    dictGet (promptEmittedFrontmatter "t" c7Prompt) "description" = some (FmValue.str "z") ∧
    dictGet (promptEmittedFrontmatter "t" c7Prompt) "name" = some (FmValue.str "x") := by
  refine ⟨by decide, by decide, ?_, ?_, by decide, by decide⟩
  · exact c7_frontmatter_override_precedence "t" "description" c7Prompt c7Agent
      (by decide) (by decide)
  · exact c7_frontmatter_override_precedence "t" "name" c7Prompt c7Agent
      (by decide) (by decide)

/-! ## Claim C8 -/

/-- A stable sort on an injective-on-the-list key is permutation-invariant:
two insertion orders of the same artifacts sort to the same list. -/
theorem sortByKey_eq_of_perm {α : Type} (key : α → String) {l₁ l₂ : List α}
    (h : l₁.Perm l₂) (hn : (l₁.map key).Nodup) :
    sortByKey key l₁ = sortByKey key l₂ := by
  haveI ht : IsTotal α (fun a b => key a ≤ key b) := ⟨fun a b => le_total (key a) (key b)⟩
  haveI htr : IsTrans α (fun a b => key a ≤ key b) := ⟨fun _ _ _ hab hbc => le_trans hab hbc⟩
  haveI : IsAntisymm α (fun a b => key a < key b) :=
    ⟨fun _ _ h1 h2 => absurd (lt_trans h1 h2) (lt_irrefl _)⟩
  have hperm : (sortByKey key l₁).Perm (sortByKey key l₂) :=
    (List.perm_insertionSort _ l₁).trans (h.trans (List.perm_insertionSort _ l₂).symm)
  have hn₂ : (l₂.map key).Nodup := ((h.map key).nodup_iff).mp hn
  have hstrict : ∀ (l : List α), (l.map key).Nodup →
      List.Sorted (fun a b => key a < key b) (sortByKey key l) := by
    intro l hnl
    have hs : List.Sorted (fun a b => key a ≤ key b) (sortByKey key l) :=
      List.sorted_insertionSort _ l
    have hnd : ((sortByKey key l).map key).Nodup :=
      (((List.perm_insertionSort _ l).map key).nodup_iff).mpr hnl
    have hne : (sortByKey key l).Pairwise (fun a b => key a ≠ key b) :=
      List.pairwise_map.mp hnd
    exact (hs.and hne).imp (fun hab => lt_of_le_of_ne hab.1 hab.2)
  exact List.eq_of_perm_of_sorted hperm (hstrict l₁ hn) (hstrict l₂ hn₂)

/-- The enabled repo-scoped instructions collected for the aggregated
repo-instructions file (copilot.py `_generate_instructions`), in
sorted-by-id order. -/
def copilotRepoInstructionRefs (tn : String) (m : Manifest) : List InstructionArtifact :=
  (sortByKey (fun i => i.id) m.artifacts.instructions).filter
    (fun i => isEnabledForTarget TargetOverride.enabledField tn i.targets
      && decide (i.scope = InstructionScope.repo))

/-- The refs accumulated by the instructions loop are the filtered list. -/
theorem generateInstructionsGo_refs (g : CopilotGenerator) (dryRun : Bool)
    (l : List InstructionArtifact) (fs : FS) :
    (generateInstructionsGo g dryRun l fs).1.2
      = l.filter (fun i => isEnabledForTarget TargetOverride.enabledField g.target_name i.targets
          && decide (i.scope = InstructionScope.repo)) := by
  induction l generalizing fs with
  | nil => rfl
  | cons i is_ ih =>
    simp only [generateInstructionsGo]
    by_cases he : isEnabledForTarget TargetOverride.enabledField g.target_name i.targets
    · rw [if_pos he]
      by_cases hsc : i.scope = InstructionScope.repo
      · rw [if_pos hsc]
        simp only [List.filter_cons, he, hsc]
        simp [ih]
      · rw [if_neg hsc]
        simp only [List.filter_cons, he, hsc]
        simp [ih]
    · rw [if_neg he]
      simp [List.filter_cons, he, ih]

/-- The generator's repo-instructions refs equal `copilotRepoInstructionRefs`. -/
theorem copilotRepoRefs_eq (g : CopilotGenerator) (dryRun : Bool) (fs : FS) :
    (generateInstructionsGo g dryRun
        (sortByKey (fun i => i.id) g.manifest.artifacts.instructions) fs).1.2
      = copilotRepoInstructionRefs g.target_name g.manifest :=
  generateInstructionsGo_refs g dryRun _ fs

/-- Claim C8: with artifact ids unique within their kind (the model invariant
the core assumes on load), permuting the insertion order of the artifact
collections leaves every aggregated document unchanged — the OpenCode config
object, the rules-index data (instructions and agents), and the collected
repo-instructions refs — because each is computed from the collections sorted
by id ascending; byte output is the image of these under the injective
external serializers. -/
theorem c8_determinism (m : Manifest)
    (ps : List PromptArtifact) (ags : List AgentArtifact) (ins : List InstructionArtifact)
    (sks : List SkillArtifact) (cms : List CommandArtifact)
    (hp : ps.Perm m.artifacts.prompts) (hag : ags.Perm m.artifacts.agents)
    (hin : ins.Perm m.artifacts.instructions) (hsk : sks.Perm m.artifacts.skills)
    (hcm : cms.Perm m.artifacts.commands)
    (hna : (m.artifacts.agents.map (fun a => a.id)).Nodup)
    (hni : (m.artifacts.instructions.map (fun i => i.id)).Nodup)
    (hnc : (m.artifacts.commands.map (fun c => c.id)).Nodup)
    (tn : String) :
    opencodeConfigDoc { m with artifacts := ⟨ps, ags, ins, sks, cms⟩ } = opencodeConfigDoc m ∧
    opencodeAgentsMdInstructions { m with artifacts := ⟨ps, ags, ins, sks, cms⟩ }
      = opencodeAgentsMdInstructions m ∧
    opencodeAgentsMdAgents { m with artifacts := ⟨ps, ags, ins, sks, cms⟩ }
      = opencodeAgentsMdAgents m ∧
    copilotRepoInstructionRefs tn { m with artifacts := ⟨ps, ags, ins, sks, cms⟩ }
      = copilotRepoInstructionRefs tn m := by
  have hcm' : (cms.map (fun c => c.id)).Nodup := ((hcm.map _).nodup_iff).mpr hnc
  have hag' : (ags.map (fun a => a.id)).Nodup := ((hag.map _).nodup_iff).mpr hna
  have hin' : (ins.map (fun i => i.id)).Nodup := ((hin.map _).nodup_iff).mpr hni
  have ec : sortByKey (fun c => c.id) cms = sortByKey (fun c => c.id) m.artifacts.commands :=
    sortByKey_eq_of_perm _ hcm hcm'
  have ea : sortByKey (fun a => a.id) ags = sortByKey (fun a => a.id) m.artifacts.agents :=
    sortByKey_eq_of_perm _ hag hag'
  have ei : sortByKey (fun i => i.id) ins
      = sortByKey (fun i => i.id) m.artifacts.instructions :=
    sortByKey_eq_of_perm _ hin hin'
  refine ⟨?_, ?_, ?_, ?_⟩
  · simp only [opencodeConfigDoc]
    rw [ec, ea]
  · simp only [opencodeAgentsMdInstructions]
    rw [ei]
  · simp only [opencodeAgentsMdAgents]
    rw [ea]
  · simp only [copilotRepoInstructionRefs]
    rw [ei]

/-- Two commands for the C8 witness manifest. -/
def c8CmdA : CommandArtifact := { id := "alpha", canonical_file := "a.md" }

/-- Second command. -/
def c8CmdB : CommandArtifact := { id := "beta", canonical_file := "b.md" }

/-- Two agents for the C8 witness manifest. -/
def c8AgA : AgentArtifact := { id := "alpha", description := "A", prompt_file := some "pa.md" }

/-- Second agent. -/
def c8AgB : AgentArtifact := { id := "beta", description := "B", prompt_file := some "pb.md" }

/-- Two instructions for the C8 witness manifest. -/
def c8InA : InstructionArtifact := { id := "alpha", scope := InstructionScope.repo, canonical_file := "ia.md" }

/-- Second instruction. -/
def c8InB : InstructionArtifact :=
  { id := "beta", scope := InstructionScope.path, canonical_file := "ib.md", apply_to := some "**/*.ts" }

/-- The C8 witness manifest, with collections inserted in descending order. -/
def c8M : Manifest :=
  { project := { name := "demo" }
    artifacts := { agents := [c8AgB, c8AgA]
                   instructions := [c8InB, c8InA]
                   commands := [c8CmdB, c8CmdA] } }

/-- Witness for C8: re-inserting the artifacts in ascending order produces
identical aggregated documents. -/
theorem c8_determinism_witness :
    ((([] : List PromptArtifact).Perm c8M.artifacts.prompts) ∧
     ([c8AgA, c8AgB].Perm c8M.artifacts.agents) ∧
     ([c8InA, c8InB].Perm c8M.artifacts.instructions) ∧
     (([] : List SkillArtifact).Perm c8M.artifacts.skills) ∧
     ([c8CmdA, c8CmdB].Perm c8M.artifacts.commands) ∧
     (c8M.artifacts.agents.map (fun a => a.id)).Nodup ∧
     (c8M.artifacts.instructions.map (fun i => i.id)).Nodup ∧
     (c8M.artifacts.commands.map (fun c => c.id)).Nodup) ∧
    (opencodeConfigDoc
        { c8M with artifacts := ⟨[], [c8AgA, c8AgB], [c8InA, c8InB], [], [c8CmdA, c8CmdB]⟩ }
      = opencodeConfigDoc c8M ∧
     opencodeAgentsMdInstructions
        { c8M with artifacts := ⟨[], [c8AgA, c8AgB], [c8InA, c8InB], [], [c8CmdA, c8CmdB]⟩ }
      = opencodeAgentsMdInstructions c8M ∧
     opencodeAgentsMdAgents
        { c8M with artifacts := ⟨[], [c8AgA, c8AgB], [c8InA, c8InB], [], [c8CmdA, c8CmdB]⟩ }
      = opencodeAgentsMdAgents c8M ∧
     copilotRepoInstructionRefs "copilot-vscode"
        { c8M with artifacts := ⟨[], [c8AgA, c8AgB], [c8InA, c8InB], [], [c8CmdA, c8CmdB]⟩ }
      = copilotRepoInstructionRefs "copilot-vscode" c8M) := by
  refine ⟨⟨by decide, by decide, by decide, by decide, by decide, by decide, by decide,
    by decide⟩, ?_⟩
  exact c8_determinism c8M [] [c8AgA, c8AgB] [c8InA, c8InB] [] [c8CmdA, c8CmdB]
    (by decide) (by decide) (by decide) (by decide) (by decide)
    (by decide) (by decide) (by decide) "copilot-vscode"

/-! ## Filesystem and generator-phase lemmas for the sync claims -/

/-- Creating directories touches no file. -/
theorem ensureDir_files (fs : FS) (p : String) : (ensureDir fs p).files = fs.files := rfl

/-- Directory cleanup touches no file. -/
theorem cleanupEmptyDirsAux_files (n : Nat) (fs : FS) (d : String) :
    (cleanupEmptyDirsAux n fs d).files = fs.files := by
  induction n generalizing fs d with
  | zero => rfl
  | succ n ih =>
    simp only [cleanupEmptyDirsAux]
    by_cases h1 : d ≠ "" ∧ fs.isDir d
    · rw [if_pos h1]
      by_cases h2 : fs.dirNonempty d
      · rw [if_pos h2]
      · rw [if_neg h2]
        exact ih _ _
    · rw [if_neg h1]

/-- Directory cleanup touches no file (wrapper). -/
theorem cleanupEmptyDirs_files (fs : FS) (d : String) :
    (cleanupEmptyDirs fs d).files = fs.files :=
  cleanupEmptyDirsAux_files _ fs d

/-- Lookup through a key-based filter. -/
theorem dictGet_filter_ne {α : Type} (l : List (String × α)) (p q : String) :
    dictGet (l.filter (fun kv => kv.1 ≠ p)) q = if q = p then none else dictGet l q := by
  induction l with
  | nil => simp [dictGet]
  | cons kv rest ih =>
    obtain ⟨k0, v0⟩ := kv
    by_cases hk : k0 = p
    · subst hk
      simp only [List.filter_cons]
      rw [if_neg (by simp)]
      rw [ih]
      by_cases hq : q = k0
      · simp [hq, dictGet]
      · simp only [if_neg hq, dictGet]
        rw [if_neg (fun he => hq he.symm)]
    · simp only [List.filter_cons]
      rw [if_pos (by simp [hk])]
      simp only [dictGet]
      by_cases hq : k0 = q
      · subst hq
        rw [if_pos rfl, if_pos rfl, if_neg (fun he => hk he)]
      · rw [if_neg hq, if_neg hq, ih]

/-- Lookup after `unlink`. -/
theorem unlink_lookup (fs : FS) (p q : String) :
    dictGet (fs.unlink p).files q = if q = p then none else dictGet fs.files q :=
  dictGet_filter_ne fs.files p q

/-! Phase lemmas: for each generation loop, (a) the returned path list depends
neither on the dry-run flag nor on the incoming filesystem, (b) a dry run
returns the filesystem unchanged, (c) a live run touches no file outside the
returned path list. -/

/-- Prompts loop, paths. -/
theorem generatePromptsGo_fst (g : CopilotGenerator) (pd : String) (d d' : Bool)
    (l : List PromptArtifact) (fs fs' : FS) :
    (generatePromptsGo g pd d l fs).1 = (generatePromptsGo g pd d' l fs').1 := by
  induction l generalizing fs fs' with
  | nil => rfl
  | cons p ps ih =>
    simp only [generatePromptsGo]
    by_cases h : isEnabledForTarget cpEnabledOf g.target_name p.targets
    · rw [if_pos h, if_pos h]
      exact congrArg (fun x => (pd ++ "/" ++ p.id ++ ".prompt.md") :: x) (ih _ _)
    · rw [if_neg h, if_neg h]
      exact ih _ _

/-- Prompts loop, dry run. -/
theorem generatePromptsGo_dry (g : CopilotGenerator) (pd : String)
    (l : List PromptArtifact) (fs : FS) :
    (generatePromptsGo g pd true l fs).2 = fs := by
  induction l generalizing fs with
  | nil => rfl
  | cons p ps ih =>
    simp only [generatePromptsGo]
    by_cases h : isEnabledForTarget cpEnabledOf g.target_name p.targets
    · rw [if_pos h]
      exact ih _
    · rw [if_neg h]
      exact ih _

/-- Prompts loop, frame: untouched files. -/
theorem generatePromptsGo_frame (g : CopilotGenerator) (pd : String)
    (l : List PromptArtifact) (fs : FS) (q : String)
    (h : q ∉ (generatePromptsGo g pd false l fs).1) :
    dictGet (generatePromptsGo g pd false l fs).2.files q = dictGet fs.files q := by
  induction l generalizing fs with
  | nil => rfl
  | cons p ps ih =>
    simp only [generatePromptsGo] at h ⊢
    by_cases he : isEnabledForTarget cpEnabledOf g.target_name p.targets
    · rw [if_pos he] at h ⊢
      simp only [List.mem_cons] at h
      push_neg at h
      rw [ih _ h.2]
      show dictGet (dictSet fs.files _ _) q = dictGet fs.files q
      rw [dictGet_dictSet]
      rw [if_neg (fun he2 => h.1 he2.symm)]
    · rw [if_neg he] at h ⊢
      exact ih _ h

/-- Agents loop, paths. -/
theorem generateAgentsGo_fst (g : CopilotGenerator) (d d' : Bool)
    (l : List AgentArtifact) (fs fs' : FS) :
    (generateAgentsGo g d l fs).1 = (generateAgentsGo g d' l fs').1 := by
  induction l generalizing fs fs' with
  | nil => rfl
  | cons a as_ ih =>
    simp only [generateAgentsGo]
    by_cases h : isEnabledForTarget TargetOverride.enabledField g.target_name a.targets
    · rw [if_pos h, if_pos h]
      exact congrArg (fun x => (g.config.agents_dir ++ "/" ++ a.id ++ ".agent.md") :: x) (ih _ _)
    · rw [if_neg h, if_neg h]
      exact ih _ _

/-- Agents loop, dry run. -/
theorem generateAgentsGo_dry (g : CopilotGenerator) (l : List AgentArtifact) (fs : FS) :
    (generateAgentsGo g true l fs).2 = fs := by
  induction l generalizing fs with
  | nil => rfl
  | cons a as_ ih =>
    simp only [generateAgentsGo]
    by_cases h : isEnabledForTarget TargetOverride.enabledField g.target_name a.targets
    · rw [if_pos h]
      exact ih _
    · rw [if_neg h]
      exact ih _

/-- Agents loop, frame. -/
theorem generateAgentsGo_frame (g : CopilotGenerator) (l : List AgentArtifact)
    (fs : FS) (q : String) (h : q ∉ (generateAgentsGo g false l fs).1) :
    dictGet (generateAgentsGo g false l fs).2.files q = dictGet fs.files q := by
  induction l generalizing fs with
  | nil => rfl
  | cons a as_ ih =>
    simp only [generateAgentsGo] at h ⊢
    by_cases he : isEnabledForTarget TargetOverride.enabledField g.target_name a.targets
    · rw [if_pos he] at h ⊢
      simp only [List.mem_cons] at h
      push_neg at h
      rw [ih _ h.2]
      show dictGet (dictSet fs.files _ _) q = dictGet fs.files q
      rw [dictGet_dictSet]
      rw [if_neg (fun he2 => h.1 he2.symm)]
    · rw [if_neg he] at h ⊢
      exact ih _ h

/-- Skills loop, paths. -/
theorem generateSkillsGo_fst (g : CopilotGenerator) (d d' : Bool)
    (l : List SkillArtifact) (fs fs' : FS) :
    (generateSkillsGo g d l fs).1 = (generateSkillsGo g d' l fs').1 := by
  induction l generalizing fs fs' with
  | nil => rfl
  | cons s ss ih =>
    simp only [generateSkillsGo]
    by_cases h : isEnabledForTarget cpEnabledOf g.target_name s.targets
    · rw [if_pos h, if_pos h]
      exact congrArg (fun x => (g.config.skills_dir ++ "/" ++ s.id ++ "/SKILL.md") :: x) (ih _ _)
    · rw [if_neg h, if_neg h]
      exact ih _ _

/-- Skills loop, dry run. -/
theorem generateSkillsGo_dry (g : CopilotGenerator) (l : List SkillArtifact) (fs : FS) :
    (generateSkillsGo g true l fs).2 = fs := by
  induction l generalizing fs with
  | nil => rfl
  | cons s ss ih =>
    simp only [generateSkillsGo]
    by_cases h : isEnabledForTarget cpEnabledOf g.target_name s.targets
    · rw [if_pos h]
      exact ih _
    · rw [if_neg h]
      exact ih _

/-- Skills loop, frame. -/
theorem generateSkillsGo_frame (g : CopilotGenerator) (l : List SkillArtifact)
    (fs : FS) (q : String) (h : q ∉ (generateSkillsGo g false l fs).1) :
    dictGet (generateSkillsGo g false l fs).2.files q = dictGet fs.files q := by
  induction l generalizing fs with
  | nil => rfl
  | cons s ss ih =>
    simp only [generateSkillsGo] at h ⊢
    by_cases he : isEnabledForTarget cpEnabledOf g.target_name s.targets
    · rw [if_pos he] at h ⊢
      simp only [List.mem_cons] at h
      push_neg at h
      rw [ih _ h.2]
      show dictGet (dictSet fs.files _ _) q = dictGet fs.files q
      rw [dictGet_dictSet]
      rw [if_neg (fun he2 => h.1 he2.symm)]
    · rw [if_neg he] at h ⊢
      exact ih _ h

/-- Instructions loop, paths. -/
theorem generateInstructionsGo_fst (g : CopilotGenerator) (d d' : Bool)
    (l : List InstructionArtifact) (fs fs' : FS) :
    (generateInstructionsGo g d l fs).1.1 = (generateInstructionsGo g d' l fs').1.1 := by
  induction l generalizing fs fs' with
  | nil => rfl
  | cons i is_ ih =>
    simp only [generateInstructionsGo]
    by_cases he : isEnabledForTarget TargetOverride.enabledField g.target_name i.targets
    · rw [if_pos he, if_pos he]
      by_cases hsc : i.scope = InstructionScope.repo
      · rw [if_pos hsc, if_pos hsc]
        exact ih _ _
      · rw [if_neg hsc, if_neg hsc]
        exact congrArg
          (fun x => (g.config.instructions_dir ++ "/" ++ i.id ++ ".instructions.md") :: x)
          (ih _ _)
    · rw [if_neg he, if_neg he]
      exact ih _ _

/-- Instructions loop, dry run. -/
theorem generateInstructionsGo_dry (g : CopilotGenerator)
    (l : List InstructionArtifact) (fs : FS) :
    (generateInstructionsGo g true l fs).2 = fs := by
  induction l generalizing fs with
  | nil => rfl
  | cons i is_ ih =>
    simp only [generateInstructionsGo]
    by_cases he : isEnabledForTarget TargetOverride.enabledField g.target_name i.targets
    · rw [if_pos he]
      by_cases hsc : i.scope = InstructionScope.repo
      · rw [if_pos hsc]
        exact ih _
      · rw [if_neg hsc]
        exact ih _
    · rw [if_neg he]
      exact ih _

/-- Instructions loop, frame. -/
theorem generateInstructionsGo_frame (g : CopilotGenerator)
    (l : List InstructionArtifact) (fs : FS) (q : String)
    (h : q ∉ (generateInstructionsGo g false l fs).1.1) :
    dictGet (generateInstructionsGo g false l fs).2.files q = dictGet fs.files q := by
  induction l generalizing fs with
  | nil => rfl
  | cons i is_ ih =>
    simp only [generateInstructionsGo] at h ⊢
    by_cases he : isEnabledForTarget TargetOverride.enabledField g.target_name i.targets
    · rw [if_pos he] at h ⊢
      by_cases hsc : i.scope = InstructionScope.repo
      · rw [if_pos hsc] at h ⊢
        exact ih _ h
      · rw [if_neg hsc] at h ⊢
        simp only [List.mem_cons] at h
        push_neg at h
        rw [ih _ h.2]
        show dictGet (dictSet fs.files _ _) q = dictGet fs.files q
        rw [dictGet_dictSet]
        rw [if_neg (fun he2 => h.1 he2.symm)]
    · rw [if_neg he] at h ⊢
      exact ih _ h

/-- Prompts phase, paths. -/
theorem generatePrompts_fst (g : CopilotGenerator) (d d' : Bool) (fs fs' : FS) :
    (g.generatePrompts d fs).1 = (g.generatePrompts d' fs').1 := by
  simp only [CopilotGenerator.generatePrompts]
  cases g.config.prompts_dir with
  | none => rfl
  | some pd => exact generatePromptsGo_fst g pd d d' _ fs fs'

/-- Prompts phase, dry run. -/
theorem generatePrompts_dry (g : CopilotGenerator) (fs : FS) :
    (g.generatePrompts true fs).2 = fs := by
  simp only [CopilotGenerator.generatePrompts]
  cases g.config.prompts_dir with
  | none => rfl
  | some pd => exact generatePromptsGo_dry g pd _ fs

/-- Prompts phase, frame. -/
theorem generatePrompts_frame (g : CopilotGenerator) (fs : FS) (q : String)
    (h : q ∉ (g.generatePrompts false fs).1) :
    dictGet (g.generatePrompts false fs).2.files q = dictGet fs.files q := by
  simp only [CopilotGenerator.generatePrompts] at h ⊢
  cases hpd : g.config.prompts_dir with
  | none => rfl
  | some pd =>
    rw [hpd] at h
    exact generatePromptsGo_frame g pd _ fs q h

/-- Instructions phase, paths. -/
theorem generateInstructions_fst (g : CopilotGenerator) (d d' : Bool) (fs fs' : FS) :
    (g.generateInstructions d fs).1 = (g.generateInstructions d' fs').1 := by
  simp only [CopilotGenerator.generateInstructions]
  rw [generateInstructionsGo_refs, generateInstructionsGo_refs]
  by_cases hr : (sortByKey (fun i => i.id) g.manifest.artifacts.instructions).filter
      (fun i => isEnabledForTarget TargetOverride.enabledField g.target_name i.targets
        && decide (i.scope = InstructionScope.repo)) ≠ []
  · rw [if_pos hr, if_pos hr]
    exact congrArg (fun x => x ++ [g.config.repo_instructions_file])
      (generateInstructionsGo_fst g d d' _ fs fs')
  · rw [if_neg hr, if_neg hr]
    exact generateInstructionsGo_fst g d d' _ fs fs'

/-- Instructions phase, dry run. -/
theorem generateInstructions_dry (g : CopilotGenerator) (fs : FS) :
    (g.generateInstructions true fs).2 = fs := by
  simp only [CopilotGenerator.generateInstructions]
  by_cases hr : (generateInstructionsGo g true
      (sortByKey (fun i => i.id) g.manifest.artifacts.instructions) fs).1.2 ≠ []
  · rw [if_pos hr]
    exact generateInstructionsGo_dry g _ fs
  · rw [if_neg hr]
    exact generateInstructionsGo_dry g _ fs

/-- Instructions phase, frame. -/
theorem generateInstructions_frame (g : CopilotGenerator) (fs : FS) (q : String)
    (h : q ∉ (g.generateInstructions false fs).1) :
    dictGet (g.generateInstructions false fs).2.files q = dictGet fs.files q := by
  simp only [CopilotGenerator.generateInstructions] at h ⊢
  by_cases hr : (generateInstructionsGo g false
      (sortByKey (fun i => i.id) g.manifest.artifacts.instructions) fs).1.2 ≠ []
  · rw [if_pos hr] at h ⊢
    simp only [List.mem_append, List.mem_singleton] at h
    push_neg at h
    show dictGet (dictSet (generateInstructionsGo g false
      (sortByKey (fun i => i.id) g.manifest.artifacts.instructions) fs).2.files _ _) q = _
    rw [dictGet_dictSet]
    rw [if_neg (fun he2 => h.2 he2.symm)]
    exact generateInstructionsGo_frame g _ fs q h.1
  · rw [if_neg hr] at h ⊢
    exact generateInstructionsGo_frame g _ fs q h

/-- Agents phase, paths. -/
theorem generateAgents_fst (g : CopilotGenerator) (d d' : Bool) (fs fs' : FS) :
    (g.generateAgents d fs).1 = (g.generateAgents d' fs').1 :=
  generateAgentsGo_fst g d d' _ fs fs'

/-- Agents phase, dry run. -/
theorem generateAgents_dry (g : CopilotGenerator) (fs : FS) :
    (g.generateAgents true fs).2 = fs :=
  generateAgentsGo_dry g _ fs

/-- Agents phase, frame. -/
theorem generateAgents_frame (g : CopilotGenerator) (fs : FS) (q : String)
    (h : q ∉ (g.generateAgents false fs).1) :
    dictGet (g.generateAgents false fs).2.files q = dictGet fs.files q :=
  generateAgentsGo_frame g _ fs q h

/-- Skills phase, paths. -/
theorem generateSkills_fst (g : CopilotGenerator) (d d' : Bool) (fs fs' : FS) :
    (g.generateSkills d fs).1 = (g.generateSkills d' fs').1 :=
  generateSkillsGo_fst g d d' _ fs fs'

/-- Skills phase, dry run. -/
theorem generateSkills_dry (g : CopilotGenerator) (fs : FS) :
    (g.generateSkills true fs).2 = fs :=
  generateSkillsGo_dry g _ fs

/-- Skills phase, frame. -/
theorem generateSkills_frame (g : CopilotGenerator) (fs : FS) (q : String)
    (h : q ∉ (g.generateSkills false fs).1) :
    dictGet (g.generateSkills false fs).2.files q = dictGet fs.files q :=
  generateSkillsGo_frame g _ fs q h

/-- Copilot generator, paths. -/
theorem copilotGenerate_fst (g : CopilotGenerator) (d d' : Bool) (fs fs' : FS) :
    (g.generate d fs).1 = (g.generate d' fs').1 := by
  simp only [CopilotGenerator.generate]
  have h1 : (if g.is_vscode then g.generatePrompts d fs else ([], fs)).1
      = (if g.is_vscode then g.generatePrompts d' fs' else ([], fs')).1 := by
    by_cases hv : g.is_vscode
    · rw [if_pos hv, if_pos hv]
      exact generatePrompts_fst g d d' fs fs'
    · rw [if_neg hv, if_neg hv]
  exact congrArg₂ (fun a b => a ++ b)
    (congrArg₂ (fun a b => a ++ b)
      (congrArg₂ (fun a b => a ++ b) h1 (generateAgents_fst g d d' _ _))
      (generateInstructions_fst g d d' _ _))
    (generateSkills_fst g d d' _ _)

/-- Copilot generator, dry run. -/
theorem copilotGenerate_dry (g : CopilotGenerator) (fs : FS) :
    (g.generate true fs).2 = fs := by
  simp only [CopilotGenerator.generate]
  rw [generateSkills_dry, generateInstructions_dry, generateAgents_dry]
  by_cases hv : g.is_vscode
  · rw [if_pos hv, generatePrompts_dry]
  · rw [if_neg hv]

/-- Copilot generator, frame. -/
theorem copilotGenerate_frame (g : CopilotGenerator) (fs : FS) (q : String)
    (h : q ∉ (g.generate false fs).1) :
    dictGet (g.generate false fs).2.files q = dictGet fs.files q := by
  simp only [CopilotGenerator.generate] at h ⊢
  simp only [List.mem_append] at h
  push_neg at h
  obtain ⟨⟨⟨h1, h2⟩, h3⟩, h4⟩ := h
  rw [generateSkills_frame _ _ _ h4, generateInstructions_frame _ _ _ h3,
    generateAgents_frame _ _ _ h2]
  by_cases hv : g.is_vscode
  · rw [if_pos hv] at h1 ⊢
    exact generatePrompts_frame g fs q h1
  · rw [if_neg hv]

/-- OpenCode generator, paths. -/
theorem opencodeGenerate_fst (g : OpenCodeGenerator) (d : Bool) (fs : FS) :
    (g.generate d fs).1 = [g.config.config_file, g.config.rules_index_file] := rfl

/-- OpenCode generator, dry run. -/
theorem opencodeGenerate_dry (g : OpenCodeGenerator) (fs : FS) :
    (g.generate true fs).2 = fs := rfl

/-- OpenCode generator, frame. -/
theorem opencodeGenerate_frame (g : OpenCodeGenerator) (fs : FS) (q : String)
    (h : q ∉ (g.generate false fs).1) :
    dictGet (g.generate false fs).2.files q = dictGet fs.files q := by
  rw [opencodeGenerate_fst] at h
  simp only [List.mem_cons, List.not_mem_nil] at h
  push_neg at h
  show dictGet (dictSet (dictSet fs.files _ _) _ _) q = dictGet fs.files q
  rw [dictGet_dictSet, if_neg (fun he => h.2.1 he.symm),
    dictGet_dictSet, if_neg (fun he => h.1 he.symm)]

/-- Per-target dispatch, paths. -/
theorem generateForTarget_fst (tn : String) (cfg : TargetConfig) (m : Manifest)
    (d d' : Bool) (fs fs' : FS) :
    (generateForTarget tn cfg m d fs).1 = (generateForTarget tn cfg m d' fs').1 := by
  cases cfg with
  | opencode t => rfl
  | copilot t => exact copilotGenerate_fst ⟨tn, t, m⟩ d d' fs fs'

/-- Per-target dispatch, dry run. -/
theorem generateForTarget_dry (tn : String) (cfg : TargetConfig) (m : Manifest) (fs : FS) :
    (generateForTarget tn cfg m true fs).2 = fs := by
  cases cfg with
  | opencode t => rfl
  | copilot t => exact copilotGenerate_dry ⟨tn, t, m⟩ fs

/-- Per-target dispatch, frame. -/
theorem generateForTarget_frame (tn : String) (cfg : TargetConfig) (m : Manifest)
    (fs : FS) (q : String) (h : q ∉ (generateForTarget tn cfg m false fs).1) :
    dictGet (generateForTarget tn cfg m false fs).2.files q = dictGet fs.files q := by
  cases cfg with
  | opencode t => exact opencodeGenerate_frame ⟨tn, t, m⟩ fs q h
  | copilot t => exact copilotGenerate_frame ⟨tn, t, m⟩ fs q h

/-- Sync generation loop, paths. -/
theorem syncGenerateGo_fst (m : Manifest) (d d' : Bool) (tgts : List String) (fs fs' : FS) :
    (syncGenerateGo m d tgts fs).1 = (syncGenerateGo m d' tgts fs').1 := by
  induction tgts generalizing fs fs' with
  | nil => rfl
  | cons tn rest ih =>
    simp only [syncGenerateGo]
    cases dictGet m.targets tn with
    | none => exact ih fs fs'
    | some cfg =>
      exact congrArg₂ (fun a b => a ++ b) (generateForTarget_fst tn cfg m d d' fs fs') (ih _ _)

/-- Sync generation loop, dry run. -/
theorem syncGenerateGo_dry (m : Manifest) (tgts : List String) (fs : FS) :
    (syncGenerateGo m true tgts fs).2 = fs := by
  induction tgts generalizing fs with
  | nil => rfl
  | cons tn rest ih =>
    simp only [syncGenerateGo]
    cases dictGet m.targets tn with
    | none => exact ih fs
    | some cfg => rw [ih, generateForTarget_dry]

/-- Sync generation loop, frame. -/
theorem syncGenerateGo_frame (m : Manifest) (tgts : List String) (fs : FS) (q : String)
    (h : q ∉ (syncGenerateGo m false tgts fs).1) :
    dictGet (syncGenerateGo m false tgts fs).2.files q = dictGet fs.files q := by
  induction tgts generalizing fs with
  | nil => rfl
  | cons tn rest ih =>
    simp only [syncGenerateGo] at h ⊢
    cases hcfg : dictGet m.targets tn with
    | none =>
      rw [hcfg] at h
      exact ih fs h
    | some cfg =>
      rw [hcfg] at h
      simp only [List.mem_append] at h
      push_neg at h
      rw [ih _ h.2]
      exact generateForTarget_frame tn cfg m fs q h.1

/-- Dry-run prune sweep: untouched filesystem, stale existing paths reported. -/
theorem pruneGo_dry (l : List String) (fs : FS) :
    pruneGo true l fs = (fs, l.filter (fun p => fs.pathExists p)) := by
  induction l with
  | nil => rfl
  | cons p ps ih =>
    simp only [pruneGo]
    by_cases hex : fs.pathExists p
    · rw [if_pos hex, ih]
      simp [List.filter_cons, hex]
    · rw [if_neg hex, ih]
      simp [List.filter_cons, hex]

/-- Live prune sweep removes exactly the swept paths from the files. -/
theorem pruneGo_false_files (l : List String) (fs : FS) (q : String) :
    dictGet (pruneGo false l fs).1.files q
      = if q ∈ l then none else dictGet fs.files q := by
  induction l generalizing fs with
  | nil => simp [pruneGo]
  | cons p ps ih =>
    simp only [pruneGo]
    have hcl : ∀ x, dictGet (cleanupEmptyDirs (fs.unlink p) (parentPath p)).files x
        = if x = p then none else dictGet fs.files x := by
      intro x
      rw [cleanupEmptyDirs_files]
      exact unlink_lookup fs p x
    by_cases hex : fs.pathExists p
    · rw [if_pos hex, if_neg Bool.false_ne_true]
      dsimp only
      rw [ih]
      by_cases hq : q ∈ ps
      · rw [if_pos hq, if_pos (List.mem_cons_of_mem _ hq)]
      · rw [if_neg hq, hcl]
        by_cases hqp : q = p
        · rw [if_pos hqp, if_pos (by simp [hqp])]
        · rw [if_neg hqp, if_neg (by simp [hq, hqp])]
    · rw [if_neg hex, ih]
      by_cases hq : q ∈ ps
      · rw [if_pos hq, if_pos (List.mem_cons_of_mem _ hq)]
      · rw [if_neg hq]
        by_cases hqp : q = p
        · subst hqp
          rw [if_pos (List.mem_cons_self _ _)]
          cases hdg : dictGet fs.files q with
          | none => rfl
          | some c => exact absurd (by simp [FS.pathExists, hdg]) hex
        · rw [if_neg (by simp [hq, hqp])]

/-- Live prune sweep reports exactly the swept paths that existed when the
sweep started (deleting one file never hides another). -/
theorem pruneGo_false_pruned (l : List String) (fs : FS) (hnd : l.Nodup) :
    (pruneGo false l fs).2 = l.filter (fun p => fs.pathExists p) := by
  induction l generalizing fs with
  | nil => rfl
  | cons p ps ih =>
    have hp : p ∉ ps := (List.nodup_cons.mp hnd).1
    have hnd' : ps.Nodup := (List.nodup_cons.mp hnd).2
    simp only [pruneGo]
    by_cases hex : fs.pathExists p
    · rw [if_pos hex, if_neg Bool.false_ne_true]
      dsimp only
      simp only [List.filter_cons, hex, if_pos]
      rw [ih _ hnd']
      have hco : ∀ x ∈ ps,
          (cleanupEmptyDirs (fs.unlink p) (parentPath p)).pathExists x = fs.pathExists x := by
        intro x hx
        have hxp : ¬ (x = p) := fun he => hp (he ▸ hx)
        simp only [FS.pathExists]
        rw [cleanupEmptyDirs_files, unlink_lookup, if_neg hxp]
      exact congrArg (fun xs => p :: xs) (List.filter_congr hco)
    · rw [if_neg hex, ih _ hnd']
      simp [List.filter_cons, hex]

/-- Lookup after persisting the tracking record. -/
theorem save_generated_tracking_lookup (fs : FS) (cur : List String) (q : String) :
    dictGet (save_generated_tracking fs cur).files q
      = if trackingPath = q then some (FileContent.tracking 1 (sortStrings cur))
        else dictGet fs.files q := by
  show dictGet (dictSet fs.files trackingPath _) q = _
  rw [dictGet_dictSet]

/-! ## Claim C9 -/

/-- Claim C9: every successful non-dry-run sync — whatever the target
selection and prune flag, and even when zero files were generated — persists
the current-run path set to the tracking record as
`{version: 1, files: sorted array of root-relative path strings}`, the files
array sorted ascending and listing exactly the current set. -/
theorem c9_tracking_always_persisted (m : Manifest) (target : Option String)
    (prune : Bool) (fs0 : FS) (out : SyncOut) (p : String)
    (hs : sync_cmd m target false prune fs0 = .ok out) :
    FS.lookup out.fs trackingPath
      = some (FileContent.tracking 1 (sortStrings out.current)) ∧
    List.Sorted (fun a b => a ≤ b) (sortStrings out.current) ∧
    (p ∈ sortStrings out.current ↔ p ∈ out.current) := by
  cases ht : targetsToSync m target with
  | error e =>
    rw [sync_cmd, ht] at hs
    cases hs
  | ok tgts =>
    rw [sync_cmd, ht] at hs
    injection hs with hs
    subst hs
    refine ⟨?_, ?_, ?_⟩
    · show dictGet (dictSet _ trackingPath _) trackingPath = _
      rw [dictGet_dictSet, if_pos rfl]
    · haveI : IsTotal String (fun a b => a ≤ b) := ⟨fun a b => le_total a b⟩
      haveI : IsTrans String (fun a b => a ≤ b) := ⟨fun _ _ _ hab hbc => le_trans hab hbc⟩
      exact List.sorted_insertionSort _ _
    · simp [sortStrings]

/-! ## Claim C10 -/

/-- Claim C10: a sync naming an explicit target present in the manifest
processes exactly that target — invoking its generator — even when the
target's `enabled` flag is false; the flag filters the selection only when no
explicit target is given. -/
theorem c10_explicit_target_ignores_enabled (m : Manifest) (t : String)
    (cfg : TargetConfig) (d p : Bool) (fs0 : FS)
    (hcfg : dictGet m.targets t = some cfg) (hdis : cfg.enabled = false) :
    targetsToSync m (some t) = .ok [t] ∧
    (∃ out, sync_cmd m (some t) d p fs0 = .ok out ∧ out.processed = [t] ∧
      out.allGenerated = (generateForTarget t cfg m d fs0).1) ∧
    targetsToSync m none
      = .ok ((m.targets.filter (fun kv => kv.2.enabled)).map (fun kv => kv.1)) := by
  have h1 : targetsToSync m (some t) = .ok [t] := by
    simp [targetsToSync, hcfg]
  refine ⟨h1, ?_, rfl⟩
  obtain ⟨o, ho⟩ : ∃ o, sync_cmd m (some t) d p fs0 = .ok o := by
    rw [sync_cmd, h1]
    exact ⟨_, rfl⟩
  refine ⟨o, ho, ?_, ?_⟩
  · rw [sync_cmd, h1] at ho
    injection ho with ho
    subst ho
    rfl
  · rw [sync_cmd, h1] at ho
    injection ho with ho
    subst ho
    show (syncGenerateGo m d [t] fs0).1 = _
    simp only [syncGenerateGo, hcfg]
    exact List.append_nil _

/-! ## Claim C4 -/

/-- Claim C4: for every manifest, target selection and prune flag, a
successful dry-run sync leaves the filesystem — files, directories and
tracking record — exactly as it found it, while computing the same current
path set as the corresponding non-dry-run invocation. -/
theorem c4_dry_run_non_mutation (m : Manifest) (target : Option String)
    (prune : Bool) (fs0 : FS) (out outLive : SyncOut)
    (hd : sync_cmd m target true prune fs0 = .ok out)
    (hl : sync_cmd m target false prune fs0 = .ok outLive) :
    out.fs = fs0 ∧ outLive.current = out.current := by
  cases ht : targetsToSync m target with
  | error e =>
    rw [sync_cmd, ht] at hd
    cases hd
  | ok tgts =>
    rw [sync_cmd, ht] at hd hl
    injection hd with hd
    injection hl with hl
    subst hd
    subst hl
    constructor
    · dsimp only
      rw [if_pos (rfl : true = true)]
      by_cases hp : prune
      · rw [if_pos hp, pruneGo_dry]
        exact syncGenerateGo_dry m tgts fs0
      · rw [if_neg hp]
        exact syncGenerateGo_dry m tgts fs0
    · dsimp only
      exact congrArg List.dedup (syncGenerateGo_fst m false true tgts fs0 fs0)

/-! ## Claim C3 -/

/-- Claim C3: a successful non-dry-run sync with prune, whose tracking record
previously held the set `P` (and whose generators do not write at the
tracking path), removes exactly the still-existing paths in `P` minus the
current set, never removes a current path — paths in both `P` and the current
set are left exactly as generation produced them — and persists the current
set as the new tracked set. -/
theorem c3_prune_correctness (m : Manifest) (target : Option String) (fs0 : FS)
    (tgts : List String) (out : SyncOut) (v : Int) (P : List String) (p : String)
    (ht : targetsToSync m target = .ok tgts)
    (hs : sync_cmd m target false true fs0 = .ok out)
    (hT : FS.lookup fs0 trackingPath = some (FileContent.tracking v P))
    (htc : trackingPath ∉ out.allGenerated) :
    (p ∈ out.pruned ↔ p ∈ P ∧ p ∉ out.current
        ∧ FS.pathExists (syncGenerateGo m false tgts fs0).2 p = true) ∧
    (p ∈ out.current → p ≠ trackingPath →
      FS.lookup out.fs p = FS.lookup (syncGenerateGo m false tgts fs0).2 p) ∧
    FS.lookup out.fs trackingPath
      = some (FileContent.tracking 1 (sortStrings out.current)) := by
  rw [sync_cmd, ht] at hs
  injection hs with hs
  subst hs
  dsimp only at htc ⊢
  simp only [reduceIte]
  have hT1 : dictGet (syncGenerateGo m false tgts fs0).2.files trackingPath
      = some (FileContent.tracking v P) := by
    rw [syncGenerateGo_frame m tgts fs0 trackingPath htc]
    exact hT
  have hprev : loadTrackingFS (syncGenerateGo m false tgts fs0).2 = P.dedup := by
    simp only [loadTrackingFS, FS.lookup]
    rw [hT1]
  rw [hprev]
  have hndstale : (sortStrings ((P.dedup).filter
      (fun q => decide (q ∉ (syncGenerateGo m false tgts fs0).1.dedup)))).Nodup :=
    (List.perm_insertionSort _ _).nodup_iff.mpr ((List.nodup_dedup P).filter _)
  refine ⟨?_, ?_, ?_⟩
  · rw [pruneGo_false_pruned _ _ hndstale]
    simp only [List.mem_filter, sortStrings, List.mem_insertionSort, List.mem_dedup,
      decide_eq_true_eq]
    tauto
  · intro hpc hptr
    show dictGet (dictSet _ trackingPath _) p = _
    rw [dictGet_dictSet, if_neg (fun he => hptr he.symm)]
    rw [ensureDir_files, pruneGo_false_files]
    rw [if_neg ?hns]
    case hns =>
      simp only [sortStrings, List.mem_insertionSort, List.mem_filter, List.mem_dedup,
        decide_eq_true_eq]
      intro hcon
      exact absurd (List.mem_dedup.mp hpc) hcon.2
    rfl
  · show dictGet (dictSet _ trackingPath _) trackingPath = _
    rw [dictGet_dictSet, if_pos rfl]

/-! ## Witnesses for the sync claims -/

/-- Decidable equality of `Except` results, for evaluating concrete runs. -/
instance {e a : Type} [DecidableEq e] [DecidableEq a] : DecidableEq (Except e a) := fun x y =>
  match x, y with
  | .error u, .error w =>
    if h : u = w then .isTrue (by rw [h])
    else .isFalse (by intro hc; injection hc with h2; exact h h2)
  | .ok u, .ok w =>
    if h : u = w then .isTrue (by rw [h])
    else .isFalse (by intro hc; injection hc with h2; exact h h2)
  | .error _, .ok _ => .isFalse (by intro hc; cases hc)
  | .ok _, .error _ => .isFalse (by intro hc; cases hc)

/-- A manifest with no targets: the degenerate sync scenario. -/
def syncDemoManifest : Manifest := { project := { name := "demo" } }

/-- Outcome of a dry-run prune sync of `syncDemoManifest` on an empty root. -/
def syncDemoDryOut : SyncOut := ⟨FS.empty, [], [], [], []⟩

/-- Outcome of the corresponding live run: only the tracking record written. -/
def syncDemoLiveOut : SyncOut :=
  ⟨{ files := [(trackingPath, FileContent.tracking 1 [])], dirs := [".agents"] },
   [], [], [], []⟩

/-- Witness for C4 at a concrete scenario. -/
theorem c4_dry_run_non_mutation_witness :
    sync_cmd syncDemoManifest none true true FS.empty = .ok syncDemoDryOut ∧
    sync_cmd syncDemoManifest none false true FS.empty = .ok syncDemoLiveOut ∧
    (syncDemoDryOut.fs = FS.empty ∧ syncDemoLiveOut.current = syncDemoDryOut.current) :=
  ⟨by decide, by decide, c4_dry_run_non_mutation syncDemoManifest none true FS.empty
    syncDemoDryOut syncDemoLiveOut (by decide) (by decide)⟩

/-- Witness for C9 at a concrete scenario. -/
theorem c9_tracking_always_persisted_witness :
    sync_cmd syncDemoManifest none false true FS.empty = .ok syncDemoLiveOut ∧
    (FS.lookup syncDemoLiveOut.fs trackingPath
        = some (FileContent.tracking 1 (sortStrings syncDemoLiveOut.current)) ∧
     List.Sorted (fun a b => a ≤ b) (sortStrings syncDemoLiveOut.current) ∧
     ("a.md" ∈ sortStrings syncDemoLiveOut.current ↔ "a.md" ∈ syncDemoLiveOut.current)) :=
  ⟨by decide, c9_tracking_always_persisted syncDemoManifest none true FS.empty
    syncDemoLiveOut "a.md" (by decide)⟩

/-- A manifest with a single disabled OpenCode-kind target named `oc`. -/
def c10Manifest : Manifest :=
  { project := { name := "demo" }
    targets := [("oc", TargetConfig.opencode { enabled := false })] }

/-- Witness for C10 at a concrete scenario: the disabled target is still
processed when named explicitly, and is filtered out otherwise. -/
theorem c10_explicit_target_ignores_enabled_witness :
    (dictGet c10Manifest.targets "oc" = some (TargetConfig.opencode { enabled := false }) ∧
     (TargetConfig.opencode ({ enabled := false } : OpenCodeTarget)).enabled = false) ∧
    (targetsToSync c10Manifest (some "oc") = .ok ["oc"] ∧
     (∃ out, sync_cmd c10Manifest (some "oc") false false FS.empty = .ok out ∧
       out.processed = ["oc"] ∧
       out.allGenerated = (generateForTarget "oc" (TargetConfig.opencode { enabled := false })
         c10Manifest false FS.empty).1) ∧
     targetsToSync c10Manifest none
       = .ok ((c10Manifest.targets.filter (fun kv => kv.2.enabled)).map (fun kv => kv.1))) :=
  ⟨⟨rfl, rfl⟩, c10_explicit_target_ignores_enabled c10Manifest "oc"
    (TargetConfig.opencode { enabled := false }) false false FS.empty rfl rfl⟩

/-- Starting filesystem for the C3 witness: a tracking record holding
`{"a.md"}` and the stale file `a.md` itself. -/
def c3FS : FS :=
  { files := [(trackingPath, FileContent.tracking 1 ["a.md"]),
              ("a.md", FileContent.rendered "m" (RenderCtx.copilotRepoInstructions []))] }

/-- Outcome of the C3 witness run: `a.md` pruned, tracking reset to `{}`. -/
def c3Out : SyncOut :=
  ⟨{ files := [(trackingPath, FileContent.tracking 1 [])], dirs := [".agents"] },
   [], [], [], ["a.md"]⟩

/-- Witness for C3 at a concrete scenario. -/
theorem c3_prune_correctness_witness :
    (targetsToSync syncDemoManifest none = .ok [] ∧
     sync_cmd syncDemoManifest none false true c3FS = .ok c3Out ∧
     FS.lookup c3FS trackingPath = some (FileContent.tracking 1 ["a.md"]) ∧
     trackingPath ∉ c3Out.allGenerated) ∧
    (("a.md" ∈ c3Out.pruned ↔ "a.md" ∈ ["a.md"] ∧ "a.md" ∉ c3Out.current
        ∧ FS.pathExists (syncGenerateGo syncDemoManifest false [] c3FS).2 "a.md" = true) ∧
     ("a.md" ∈ c3Out.current → "a.md" ≠ trackingPath →
       FS.lookup c3Out.fs "a.md"
         = FS.lookup (syncGenerateGo syncDemoManifest false [] c3FS).2 "a.md") ∧
     FS.lookup c3Out.fs trackingPath
       = some (FileContent.tracking 1 (sortStrings c3Out.current))) :=
  ⟨⟨rfl, by decide, rfl, by decide⟩,
   c3_prune_correctness syncDemoManifest none c3FS [] c3Out 1 ["a.md"] "a.md"
     rfl (by decide) rfl (by decide)⟩
